import Mathlib

/-!
# Employee resource handlers (`main.go`)

A shallow embedding of the four HTTP handlers registered in `main`
(`GET /employee`, `POST /employee`, `PUT /employee/:id`,
`DELETE /employee/:id`) together with the parts of the document store driver
and of the codecs they call.  The collection is an explicit state (a list of
BSON documents); every handler returns its response, the resulting collection
and the list of store calls it issued.
-/

namespace HRMS

/-! ## Values -/

/-- Go `float64`, carried as its IEEE-754 bit pattern.  The handlers only copy
these values; the zero value `0.0` is the all-zero pattern. -/
structure Float64 where
  bits : Nat
deriving DecidableEq, Repr

/-- The zero value of `float64`. -/
def Float64.zero : Float64 := ⟨0⟩

/-- The value `1.0`: exponent 1023, fraction 0. -/
def Float64.one : Float64 := ⟨1023 * 2 ^ 52⟩

/-- The sign bit. -/
def Float64.sign (f : Float64) : Nat := f.bits / 2 ^ 63 % 2

/-- The eleven exponent bits. -/
def Float64.exponent (f : Float64) : Nat := f.bits / 2 ^ 52 % 2048

/-- The fifty-two fraction bits. -/
def Float64.fraction (f : Float64) : Nat := f.bits % 2 ^ 52

/-- A NaN or an infinity has no JSON encoding: `encoding/json` reports it with
the text `strconv.FormatFloat` gives it.  Every other value is encoded. -/
def Float64.unsupported (f : Float64) : Option String :=
  if f.exponent = 2047 then
    some (if f.fraction ≠ 0 then "NaN" else if f.sign = 1 then "-Inf" else "+Inf")
  else none

/-- A machine integer of `w` bits, two's complement. -/
def toSigned (w : Nat) (i : Int) : Int := (i + 2 ^ (w - 1)) % 2 ^ w - 2 ^ (w - 1)

/-- Go's conversion `float64(i)` of an integer: exact up to 53 significant
bits, rounded to nearest, ties to even, beyond. -/
def Float64.ofInt (i : Int) : Float64 :=
  if i = 0 then ⟨0⟩
  else
    let m := i.natAbs
    let e := Nat.log2 m
    let s := if i < 0 then 2 ^ 63 else 0
    if e ≤ 52 then ⟨s + (e + 1023) * 2 ^ 52 + (m * 2 ^ (52 - e) - 2 ^ 52)⟩
    else
      let q := m / 2 ^ (e - 52)
      let r := m % 2 ^ (e - 52)
      let half := 2 ^ (e - 53)
      let q1 := if r > half ∨ (r = half ∧ q % 2 = 1) then q + 1 else q
      ⟨s + (e + 1023) * 2 ^ 52 + (q1 - 2 ^ 52)⟩

/-- The driver's `primitive.ObjectID`, a `[12]byte`. -/
structure ObjectID where
  bytes : List (Fin 256)
  size : bytes.length = 12
deriving DecidableEq, Repr

/-- The digits used by `ObjectID.Hex` (`hextable` of `encoding/hex`). -/
def hextable : String := "0123456789abcdef"

/-- One digit of `hextable`. -/
def hexDigit (n : Nat) : Char := hextable.data.getD n '0'

/-- The two digits `encoding/hex` writes for one byte. -/
def encodeByte (b : Fin 256) : List Char := [hexDigit (b.val / 16), hexDigit (b.val % 16)]

/-- The digits of `hex.EncodeToString`. -/
def hexEncode : List (Fin 256) → List Char
  | [] => []
  | b :: bs => encodeByte b ++ hexEncode bs

/-- `ObjectID.Hex`: the 24 digit lower-case rendering. -/
def ObjectID.Hex (id : ObjectID) : String := String.mk (hexEncode id.bytes)

/-- `fromHexChar` of `encoding/hex`: both cases of the letters are accepted. -/
def fromHexChar (c : Char) : Option Nat :=
  if '0' ≤ c ∧ c ≤ '9' then some (c.toNat - 48)
  else if 'a' ≤ c ∧ c ≤ 'f' then some (c.toNat - 87)
  else if 'A' ≤ c ∧ c ≤ 'F' then some (c.toNat - 55)
  else none

/-- `hex.Decode`: pairs of digits to bytes; an odd length or a character that
is not a hexadecimal digit is an error. -/
def hexDecode : List Char → Option (List (Fin 256))
  | [] => some []
  | [_] => none
  | a :: b :: rest =>
    match fromHexChar a, fromHexChar b, hexDecode rest with
    | some hi, some lo, some tl => some (⟨(hi * 16 + lo) % 256, Nat.mod_lt _ (by decide)⟩ :: tl)
    | _, _, _ => none

/-- `primitive.ObjectIDFromHex`: `len(s) != 24` (bytes) is rejected, then the
string is decoded as hexadecimal. -/
def ObjectIDFromHex (s : String) : Option ObjectID :=
  if s.utf8ByteSize ≠ 24 then none
  else
    match hexDecode s.data with
    | some bs => if h : bs.length = 12 then some ⟨bs, h⟩ else none
    | none => none

/-- A path identifier is well formed when it is 24 hexadecimal digits. -/
def IsHexId (s : String) : Prop :=
  s.length = 24 ∧ ∀ c ∈ s.data, (fromHexChar c).isSome = true

instance (s : String) : Decidable (IsHexId s) := by
  unfold IsHexId; exact inferInstance

/-- Go's `error` values as the handlers tell them apart: the driver's sentinel
`mongo.ErrNoDocuments`, and every other error with its `Error()` text. -/
inductive GoError where
  | ErrNoDocuments
  | other (msg : String)
deriving DecidableEq, Repr

/-- The text returned by `err.Error()`. -/
def GoError.Error : GoError → String
  | .ErrNoDocuments => "mongo: no documents in result"
  | .other msg => msg

/-- BSON values held by the documents of the collection: the types the
handlers write (string, double, ObjectID), and boolean, null and the two
integer types (read as machine integers of 32 and 64 bits). -/
inductive BsonValue where
  | string (s : String)
  | double (f : Float64)
  | objectID (id : ObjectID)
  | boolean (b : Bool)
  | null
  | int32 (i : Int)
  | int64 (i : Int)
deriving DecidableEq, Repr

/-- The driver's `bson.D`: an ordered list of key/value elements. -/
abbrev D := List (String × BsonValue)

/-- The `employees` collection: the stored documents in natural order. -/
abbrev Collection := List D

/-- The `Employee` struct. -/
structure Employee where
  ID : String
  Name : String
  Salary : Float64
  Age : Float64
deriving DecidableEq, Repr

/-- The value of `new(Employee)` and of `&Employee{}`: every field zero. -/
def Employee.zero : Employee := ⟨"", "", Float64.zero, Float64.zero⟩

/-- A Go slice is either `nil` or a (possibly empty) allocated sequence. -/
inductive Slice (α : Type) where
  | nil
  | mk (xs : List α)
deriving DecidableEq, Repr

/-- The members of a JSON object that the `json` tags of `Employee` name.  A
member that is absent is `none`. -/
structure Payload where
  id : Option String
  name : Option String
  salary : Option Float64
  age : Option Float64
deriving DecidableEq, Repr

/-- A request body as `c.BodyParser` sees it: one it rejects with an error, or
a JSON object. -/
inductive Body where
  | malformed (err : String)
  | object (p : Payload)
deriving DecidableEq, Repr

/-- `c.BodyParser(employee)`: an error, or the struct with every member that
is present stored in its field, the other fields left as they were. -/
def BodyParser (body : Body) (employee : Employee) : Except String Employee :=
  match body with
  | .malformed err => .error err
  | .object p =>
    .ok { ID := p.id.getD employee.ID, Name := p.name.getD employee.Name,
          Salary := p.salary.getD employee.Salary, Age := p.age.getD employee.Age }

/-! ## Responses -/

/-- The Go values the handlers hand to `c.JSON`. -/
inductive JsonArg where
  | employee (e : Employee)
  | employees (es : Slice Employee)
  | map (kvs : List (String × String))
deriving DecidableEq, Repr

/-- A response body: plain text (`SendString`) or the JSON encoding of a value. -/
inductive ResponseBody where
  | text (s : String)
  | json (v : JsonArg)
deriving DecidableEq, Repr

/-- Status code and body of a response. -/
structure Response where
  status : Nat
  body : ResponseBody
deriving DecidableEq, Repr

/-- The top-level shape of a JSON text. -/
inductive JsonShape where
  | null
  | array (len : Nat)
  | object
deriving DecidableEq, Repr

/-- The top-level shape `encoding/json` gives a value: a nil slice is `null`,
any other slice an array, a struct or a map an object. -/
def JsonArg.shape : JsonArg → JsonShape
  | .employee _ => .object
  | .employees .nil => .null
  | .employees (.mk xs) => .array xs.length
  | .map _ => .object

/-- The error of `encoding/json` for a `float64` it cannot encode. -/
def unsupportedValue (f : Float64) : Option GoError :=
  match f.unsupported with
  | some str => some (.other ("json: unsupported value: " ++ str))
  | none => none

/-- Encoding of an `Employee`: the fields are written in order (the empty ones
left out), and the first number that cannot be encoded is the error. -/
def encodeEmployeeError (e : Employee) : Option GoError :=
  match unsupportedValue e.Salary with
  | some err => some err
  | none => unsupportedValue e.Age

/-- Encoding of a sequence of employees: the first error, if any. -/
def encodeEmployeesError : List Employee → Option GoError
  | [] => none
  | e :: es =>
    match encodeEmployeeError e with
    | some err => some err
    | none => encodeEmployeesError es

/-- The error `json.Marshal` returns for a slice of employees. -/
def marshalSliceError : Slice Employee → Option GoError
  | .nil => none
  | .mk es => encodeEmployeesError es

/-- `c.Status(status).JSON(employees)` as the return value of a handler: when
the encoding fails the handler returns the error, and Fiber's default error
handler answers 500 with the error's text. -/
def sendEmployees (status : Nat) (employees : Slice Employee) : Response :=
  match marshalSliceError employees with
  | some err => ⟨500, .text err.Error⟩
  | none => ⟨status, .json (.employees employees)⟩

/-- Fiber's `utils.StatusMessage` for the codes the handlers send. -/
def StatusMessage (status : Nat) : String :=
  if status = 400 then "Bad Request"
  else if status = 404 then "Not Found"
  else if status = 500 then "Internal Server Error"
  else ""

/-- `c.SendStatus(status)`: the body being empty, it is set to the status
message. -/
def SendStatus (status : Nat) : Response := ⟨status, .text (StatusMessage status)⟩

/-! ## BSON codec -/

/-- Marshalling of an `Employee` by the driver's struct codec.  `ID` carries
`bson:"_id,omitempty"`; the other fields carry no `bson` tag, so their key is
the lower-cased field name and they are always written. -/
def marshalEmployee (e : Employee) : D :=
  (if e.ID = "" then [] else [("_id", BsonValue.string e.ID)]) ++
    [("name", .string e.Name), ("salary", .double e.Salary), ("age", .double e.Age)]

/-- The fields of `Employee` as the struct codec describes them. -/
inductive Field where
  | ID | Name | Salary | Age
deriving DecidableEq, Repr

/-- The struct description's key of each field. -/
def fieldByKey (k : String) : Option Field :=
  if k = "_id" then some .ID
  else if k = "name" then some .Name
  else if k = "salary" then some .Salary
  else if k = "age" then some .Age
  else none

/-- The key under which the struct description holds a field. -/
def Field.key : Field → String
  | .ID => "_id"
  | .Name => "name"
  | .Salary => "salary"
  | .Age => "age"

/-- Lower-casing of one character as `strings.ToLower` does it, for every
character whose lower-case form is an ASCII character: `A` to `Z`, U+0130 (to
`i`) and U+212A (to `k`).  Any other character has a lower-case form outside
ASCII, which no key of the struct contains, and is left as it is. -/
def lowerRune (c : Char) : Char :=
  if 'A' ≤ c ∧ c ≤ 'Z' then Char.ofNat (c.toNat + 32)
  else if c.toNat = 0x130 then 'i'
  else if c.toNat = 0x212A then 'k'
  else c

/-- Lower-casing of a key, character by character. -/
def lowerKey (k : String) : String := String.mk (k.data.map lowerRune)

/-- Field lookup while decoding: the element's key, and when that is not a key
of the struct, its lower-cased form. -/
def lookupField (k : String) : Option Field :=
  match fieldByKey k with
  | some f => some f
  | none => fieldByKey (lowerKey k)

/-- The driver's name of the type of a value, as its error texts print it. -/
def BsonValue.typeName : BsonValue → String
  | .string _ => "string"
  | .double _ => "double"
  | .objectID _ => "objectID"
  | .boolean _ => "boolean"
  | .null => "null"
  | .int32 _ => "32-bit integer"
  | .int64 _ => "64-bit integer"

/-- The error of the struct codec for a field that does not decode: it names
the field's key. -/
def decodeError (f : Field) (cause : String) : GoError :=
  .other ("error decoding key " ++ f.key ++ ": " ++ cause)

/-- Decoding into a Go `string`: a string, an ObjectID (as its hex form) or
null (the empty string); a double, a boolean or an integer is an error. -/
def decodeString (v : BsonValue) : Except String String :=
  match v with
  | .string s => .ok s
  | .objectID id => .ok id.Hex
  | .null => .ok ""
  | _ => .error ("cannot decode " ++ v.typeName ++ " into a string type")

/-- Decoding into a Go `float64`: a double, an integer (converted), a boolean
(`true` is 1, `false` is 0) or null (zero); a string or an ObjectID is an
error. -/
def decodeFloat (v : BsonValue) : Except String Float64 :=
  match v with
  | .double f => .ok f
  | .int32 i => .ok (Float64.ofInt (toSigned 32 i))
  | .int64 i => .ok (Float64.ofInt (toSigned 64 i))
  | .boolean b => .ok (if b then Float64.one else Float64.zero)
  | .null => .ok Float64.zero
  | _ => .error ("cannot decode " ++ v.typeName ++ " into a float32 or float64 type")

/-- Decoding of one element into the struct; an element whose key names no
field is skipped. -/
def decodeElement (e : Employee) (k : String) (v : BsonValue) : Except GoError Employee :=
  match lookupField k with
  | none => .ok e
  | some .ID =>
    match decodeString v with
    | .ok s => .ok { e with ID := s }
    | .error cause => .error (decodeError .ID cause)
  | some .Name =>
    match decodeString v with
    | .ok s => .ok { e with Name := s }
    | .error cause => .error (decodeError .Name cause)
  | some .Salary =>
    match decodeFloat v with
    | .ok f => .ok { e with Salary := f }
    | .error cause => .error (decodeError .Salary cause)
  | some .Age =>
    match decodeFloat v with
    | .ok f => .ok { e with Age := f }
    | .error cause => .error (decodeError .Age cause)

/-- Unmarshalling of a document into a struct, element by element.  The result
is the struct as it stands when decoding stops, and the error that stopped it. -/
def unmarshalEmployee : D → Employee → Employee × Option GoError
  | [], e => (e, none)
  | (k, v) :: rest, e =>
    match decodeElement e k v with
    | .ok e1 => unmarshalEmployee rest e1
    | .error err => (e, some err)

/-! ## The document store -/

/-- The update documents the handlers build: `bson.D{{"$set", fields}}`. -/
inductive UpdateDoc where
  | set (fields : D)
deriving DecidableEq, Repr

/-- The calls a handler issues on the collection, with their arguments. -/
inductive StoreCall where
  | Find (filter : D)
  | All
  | InsertOne (document : D)
  | FindOne (filter : D)
  | FindOneAndUpdate (filter : D) (update : UpdateDoc)
  | DeleteOne (filter : D)
deriving DecidableEq, Repr

/-- The value stored under `_id`, when the document has one. -/
def docId (d : D) : Option BsonValue := d.lookup "_id"

/-- The identifiers of the stored documents, in order. -/
def idsOf (coll : Collection) : List (Option BsonValue) := coll.map docId

/-- The store's unique index on `_id`: no two stored documents share an
identifier. -/
def UniqueIds (coll : Collection) : Prop := (idsOf coll).Nodup

instance (coll : Collection) : Decidable (UniqueIds coll) := by
  unfold UniqueIds; exact inferInstance

/-- A filter of equality conditions selects the documents that hold each
listed value under its key. -/
def matchesFilter (filter : D) (doc : D) : Bool :=
  filter.all fun kv => decide (doc.lookup kv.1 = some kv.2)

/-- An injected failure of a store call (connection, server) as a Go error. -/
def faultError (msg : String) : GoError := .other msg

/-- `Collection.Find`: a failure, or a cursor over the selected documents. -/
def Find (fault : Option String) (coll : Collection) (filter : D) : Except GoError (List D) :=
  match fault with
  | some msg => .error (faultError msg)
  | none => .ok (coll.filter (matchesFilter filter))

/-- Decoding of the documents of a cursor, each into a fresh struct; the first
decoding error stops the loop. -/
def decodeAll : List D → Except GoError (List Employee)
  | [] => .ok []
  | d :: ds =>
    match unmarshalEmployee d Employee.zero with
    | (_, some err) => .error err
    | (e, none) =>
      match decodeAll ds with
      | .ok es => .ok (e :: es)
      | .error err => .error err

/-- `Cursor.All`: a failure, or the slice given re-sliced to the decoded
documents (a nil slice stays nil when there is no document). -/
def CursorAll (fault : Option String) (cursor : List D) (results : Slice Employee) :
    Except GoError (Slice Employee) :=
  match fault with
  | some msg => .error (faultError msg)
  | none =>
    match decodeAll cursor with
    | .error err => .error err
    | .ok [] =>
      match results with
      | .nil => .ok .nil
      | .mk _ => .ok (.mk [])
    | .ok (e :: es) => .ok (.mk (e :: es))

/-- The driver adds `_id` in front of a document that has none, with the
ObjectID it generated. -/
def ensureID (newId : ObjectID) (document : D) : D × BsonValue :=
  match document.lookup "_id" with
  | some v => (document, v)
  | none => (("_id", .objectID newId) :: document, .objectID newId)

/-- The text of the server's duplicate key error. -/
def duplicateKeyMessage : String := "E11000 duplicate key error"

/-- `Collection.InsertOne`: `newId` is the ObjectID the driver generates for
this call.  The server rejects a document whose `_id` is already stored;
otherwise the document is stored and its identifier returned. -/
def InsertOne (fault : Option String) (newId : ObjectID) (coll : Collection) (document : D) :
    Except GoError (BsonValue × Collection) :=
  match fault with
  | some msg => .error (faultError msg)
  | none =>
    let r := ensureID newId document
    if some r.2 ∈ idsOf coll then .error (.other duplicateKeyMessage)
    else .ok (r.2, coll ++ [r.1])

/-- `Collection.FindOne`: a failure, `ErrNoDocuments`, or the first selected
document. -/
def FindOne (fault : Option String) (coll : Collection) (filter : D) : Except GoError D :=
  match fault with
  | some msg => .error (faultError msg)
  | none =>
    match coll.find? (matchesFilter filter) with
    | some d => .ok d
    | none => .error .ErrNoDocuments

/-- `SingleResult.Decode`: the error of the result if it has one, else the
document unmarshalled into the struct. -/
def Decode (r : Except GoError D) (v : Employee) : Employee × Option GoError :=
  match r with
  | .error err => (v, some err)
  | .ok d => unmarshalEmployee d v

/-- `$set` of one field: the value under the key is replaced, or the element
is added at the end. -/
def setField : D → String → BsonValue → D
  | [], k, v => [(k, v)]
  | (k1, v1) :: rest, k, v =>
    if k1 = k then (k, v) :: rest else (k1, v1) :: setField rest k v

/-- `$set` of the fields of an update document, in order. -/
def applySet (doc : D) (fields : D) : D :=
  fields.foldl (fun d kv => setField d kv.1 kv.2) doc

/-- The first selected document is updated; the result is that document as it
was and the new collection, or `none` when no document is selected. -/
def updateFirst (filter : D) (fields : D) : Collection → Option (D × Collection)
  | [] => none
  | d :: ds =>
    if matchesFilter filter d then some (d, applySet d fields :: ds)
    else
      match updateFirst filter fields ds with
      | some (old, ds1) => some (old, d :: ds1)
      | none => none

/-- `Collection.FindOneAndUpdate` without options (no upsert): a failure,
`ErrNoDocuments`, or the document before the update. -/
def FindOneAndUpdate (fault : Option String) (coll : Collection) (filter : D)
    (update : UpdateDoc) : Except GoError (D × Collection) :=
  match fault with
  | some msg => .error (faultError msg)
  | none =>
    match update with
    | .set fields =>
      match updateFirst filter fields coll with
      | some r => .ok r
      | none => .error .ErrNoDocuments

/-- The first selected document is removed; the count of removed documents
comes with the new collection. -/
def deleteFirst (filter : D) : Collection → Nat × Collection
  | [] => (0, [])
  | d :: ds =>
    if matchesFilter filter d then (1, ds)
    else
      let r := deleteFirst filter ds
      (r.1, d :: r.2)

/-- `Collection.DeleteOne`: a failure, or `DeletedCount` and the new
collection. -/
def DeleteOne (fault : Option String) (coll : Collection) (filter : D) :
    Except GoError (Nat × Collection) :=
  match fault with
  | some msg => .error (faultError msg)
  | none => .ok (deleteFirst filter coll)

/-! ## The handlers -/

/-- What a handler leaves behind: the response, the collection, and the store
calls it issued, in order. -/
structure Outcome where
  resp : Response
  coll : Collection
  calls : List StoreCall
deriving DecidableEq, Repr

/-- The handler of `GET /employee`. -/
def getEmployees (findFault cursorFault : Option String) (coll : Collection) : Outcome :=
  let query : D := []
  match Find findFault coll query with
  | .error err => ⟨⟨500, .text err.Error⟩, coll, [.Find query]⟩
  | .ok cursor =>
    let employees : Slice Employee := .mk []
    match CursorAll cursorFault cursor employees with
    | .error err => ⟨⟨500, .text err.Error⟩, coll, [.Find query, .All]⟩
    | .ok employees => ⟨sendEmployees 200 employees, coll, [.Find query, .All]⟩

/-- The handler of `POST /employee`.  `newId` is the ObjectID the driver
generates during `InsertOne`.  The numbers of the response are those of the
JSON body or zero, so their encoding does not fail. -/
def postEmployee (insertFault readFault : Option String) (newId : ObjectID)
    (coll : Collection) (body : Body) : Outcome :=
  match BodyParser body Employee.zero with
  | .error err => ⟨⟨400, .text err⟩, coll, []⟩
  | .ok parsed =>
    let employee : Employee := { parsed with ID := "" }
    let document := marshalEmployee employee
    match InsertOne insertFault newId coll document with
    | .error err => ⟨⟨500, .text err.Error⟩, coll, [.InsertOne document]⟩
    | .ok (insertedID, coll1) =>
      let filter : D := [("_id", insertedID)]
      let createdRecord := FindOne readFault coll1 filter
      let createdEmployee := (Decode createdRecord Employee.zero).1
      ⟨⟨201, .json (.employee createdEmployee)⟩, coll1, [.InsertOne document, .FindOne filter]⟩

/-- The update document of the `PUT` handler. -/
def updateDocument (employee : Employee) : UpdateDoc :=
  .set [("name", .string employee.Name), ("age", .double employee.Age),
        ("salary", .double employee.Salary)]

/-- The handler of `PUT /employee/:id`.  The numbers of the response are those
of the JSON body, so their encoding does not fail. -/
def putEmployee (fault : Option String) (coll : Collection) (idParam : String) (body : Body) :
    Outcome :=
  match ObjectIDFromHex idParam with
  | none => ⟨SendStatus 400, coll, []⟩
  | some employeeid =>
    match BodyParser body Employee.zero with
    | .error err => ⟨⟨400, .text err⟩, coll, []⟩
    | .ok employee =>
      let query : D := [("_id", .objectID employeeid)]
      let update := updateDocument employee
      match FindOneAndUpdate fault coll query update with
      | .error err =>
        if err = .ErrNoDocuments then ⟨SendStatus 400, coll, [.FindOneAndUpdate query update]⟩
        else ⟨SendStatus 500, coll, [.FindOneAndUpdate query update]⟩
      | .ok (_, coll1) =>
        ⟨⟨200, .json (.employee { employee with ID := idParam })⟩, coll1,
          [.FindOneAndUpdate query update]⟩

/-- The handler of `DELETE /employee/:id`. -/
def deleteEmployee (fault : Option String) (coll : Collection) (idParam : String) : Outcome :=
  match ObjectIDFromHex idParam with
  | none => ⟨SendStatus 400, coll, []⟩
  | some employeeID =>
    let query : D := [("_id", .objectID employeeID)]
    match DeleteOne fault coll query with
    | .error _ => ⟨SendStatus 500, coll, [.DeleteOne query]⟩
    | .ok (deletedCount, coll1) =>
      if deletedCount < 1 then ⟨SendStatus 404, coll1, [.DeleteOne query]⟩
      else
        ⟨⟨200, .json (.map [("message", "Employee successfully deleted")])⟩, coll1,
          [.DeleteOne query]⟩

/-! ## Vocabulary of the properties -/

/-- The keys of a document, in order. -/
def keys (d : D) : List String := d.map Prod.fst

/-- The fields an update document sets. -/
def UpdateDoc.fields : UpdateDoc → D
  | .set fields => fields

/-- A stored document decoded into a fresh struct, as `Cursor.All` does for
each document. -/
def decodeEmployee (d : D) : Employee := (unmarshalEmployee d Employee.zero).1

/-- The document decodes into an `Employee` without error. -/
def Decodable (d : D) : Prop := (unmarshalEmployee d Employee.zero).2 = none

instance (d : D) : Decidable (Decodable d) := by
  unfold Decodable; exact inferInstance

/-- The `Employee` with the given identifier and the name, salary and age of a
payload, an absent member counting as the zero value of its type. -/
def Payload.toEmployee (p : Payload) (id : String) : Employee :=
  ⟨id, p.name.getD "", p.salary.getD Float64.zero, p.age.getD Float64.zero⟩

/-- The document `POST /employee` hands to the store for a payload, with the
identifier the driver adds. -/
def createdDocument (newId : ObjectID) (p : Payload) : D :=
  (ensureID newId (marshalEmployee (p.toEmployee ""))).1

/-- The numbers of the payload have a JSON encoding, as the numbers of every
JSON body have: none is a NaN or an infinity. -/
def Payload.Encodable (p : Payload) : Prop := encodeEmployeeError (p.toEmployee "") = none

instance (p : Payload) : Decidable p.Encodable := by
  unfold Payload.Encodable; exact inferInstance

/-- The filter selecting the document stored under an ObjectID. -/
def idFilter (id : ObjectID) : D := [("_id", .objectID id)]

/-! ## Lemmas on identifiers -/

theorem fromHexChar_hexDigit (n : Nat) (h : n < 16) : fromHexChar (hexDigit n) = some n := by
  interval_cases n <;> decide

theorem hexDecode_hexEncode (bs : List (Fin 256)) : hexDecode (hexEncode bs) = some bs := by
  induction bs with
  | nil => rfl
  | cons b bs ih =>
    have h1 : b.val / 16 < 16 := by omega
    have h2 : b.val % 16 < 16 := by omega
    have hb : (b.val / 16 * 16 + b.val % 16) % 256 = b.val := by omega
    simp only [hexEncode, encodeByte, List.cons_append, List.nil_append, hexDecode,
      fromHexChar_hexDigit _ h1, fromHexChar_hexDigit _ h2, List.append_eq, ih]
    refine congrArg (fun x => some (x :: bs)) ?_
    apply Fin.ext
    exact hb

theorem char_le_iff (a b : Char) : a ≤ b ↔ a.toNat ≤ b.toNat := by
  simp only [Char.le_def, UInt32.le_def, BitVec.le_def, Char.toNat, UInt32.toNat]

theorem fromHexChar_bound (c : Char) (n : Nat) (h : fromHexChar c = some n) :
    n < 16 ∧ c.toNat ≤ 102 := by
  unfold fromHexChar at h
  simp only [char_le_iff] at h
  have e0 : ('0' : Char).toNat = 48 := by decide
  have e9 : ('9' : Char).toNat = 57 := by decide
  have ea : ('a' : Char).toNat = 97 := by decide
  have ef : ('f' : Char).toNat = 102 := by decide
  have eA : ('A' : Char).toNat = 65 := by decide
  have eF : ('F' : Char).toNat = 70 := by decide
  rw [e0, e9, ea, ef, eA, eF] at h
  split_ifs at h with h1 h2 h3 <;> simp only [Option.some.injEq] at h <;> omega

theorem utf8Size_of_ascii (c : Char) (h : c.toNat ≤ 127) : c.utf8Size = 1 := by
  unfold Char.utf8Size
  have h1 : c.val ≤ UInt32.ofNatCore 127 (by decide) := by
    simp only [UInt32.le_def, BitVec.le_def]
    exact h
  simp only [if_pos h1]

theorem utf8ByteSize_go_ascii (l : List Char) (h : ∀ c ∈ l, c.toNat ≤ 127) :
    String.utf8ByteSize.go l = l.length := by
  induction l with
  | nil => rfl
  | cons c cs ih =>
    simp only [String.utf8ByteSize.go, List.length_cons]
    rw [ih (fun x hx => h x (List.mem_cons_of_mem _ hx)),
      utf8Size_of_ascii c (h c (List.mem_cons_self _ _))]

theorem isSome_hex_ascii (c : Char) (h : (fromHexChar c).isSome = true) : c.toNat ≤ 127 := by
  obtain ⟨n, hn⟩ := Option.isSome_iff_exists.mp h
  have := (fromHexChar_bound c n hn).2
  omega

theorem hexDecode_some : ∀ (l : List Char) (bs : List (Fin 256)), hexDecode l = some bs →
    (∀ c ∈ l, (fromHexChar c).isSome = true) ∧ l.length = 2 * bs.length
  | [], bs, h => by
    simp only [hexDecode, Option.some.injEq] at h
    subst h
    simp
  | [_], bs, h => by simp [hexDecode] at h
  | a :: b :: rest, bs, h => by
    simp only [hexDecode] at h
    split at h
    · rename_i hi lo tl ha hb ht
      simp only [Option.some.injEq] at h
      subst h
      obtain ⟨h1, h2⟩ := hexDecode_some rest tl ht
      refine ⟨?_, ?_⟩
      · intro c hc
        simp only [List.mem_cons] at hc
        rcases hc with rfl | rfl | hc
        · simp [ha]
        · simp [hb]
        · exact h1 c hc
      · simp only [List.length_cons, h2]; omega
    · simp at h

theorem hexDecode_of_hex : ∀ (l : List Char) (n : Nat),
    (∀ c ∈ l, (fromHexChar c).isSome = true) → l.length = 2 * n →
      ∃ bs, hexDecode l = some bs ∧ bs.length = n
  | [], n, _, hn => ⟨[], rfl, by simp only [List.length_nil] at hn ⊢; omega⟩
  | [_], n, _, hn => by simp only [List.length_cons, List.length_nil] at hn; omega
  | a :: b :: rest, n, hall, hn => by
    simp only [List.length_cons] at hn
    obtain ⟨hi, ha⟩ := Option.isSome_iff_exists.mp (hall a (by simp))
    obtain ⟨lo, hb⟩ := Option.isSome_iff_exists.mp (hall b (by simp))
    obtain ⟨tl, ht, hlen⟩ :=
      hexDecode_of_hex rest (n - 1) (fun c hc => hall c (by simp [hc])) (by omega)
    refine ⟨⟨(hi * 16 + lo) % 256, Nat.mod_lt _ (by decide)⟩ :: tl, ?_, ?_⟩
    · simp only [hexDecode, ha, hb, ht]
    · simp only [List.length_cons, hlen]; omega

theorem ObjectIDFromHex_of_IsHexId (s : String) (h : IsHexId s) :
    ∃ id, ObjectIDFromHex s = some id := by
  obtain ⟨hlen, hall⟩ := h
  have hsz : s.utf8ByteSize = 24 := by
    have := utf8ByteSize_go_ascii s.data (fun c hc => isSome_hex_ascii c (hall c hc))
    simp only [String.utf8ByteSize, String.length] at *
    omega
  obtain ⟨bs, hbs, hl⟩ := hexDecode_of_hex s.data 12 hall hlen
  refine ⟨⟨bs, hl⟩, ?_⟩
  unfold ObjectIDFromHex
  rw [if_neg (by simp [hsz]), hbs]
  simp only [hl, dite_true]

theorem IsHexId_of_ObjectIDFromHex (s : String) (id : ObjectID) (h : ObjectIDFromHex s = some id) :
    IsHexId s := by
  unfold ObjectIDFromHex at h
  split_ifs at h with hsz
  split at h
  · rename_i bs hbs
    obtain ⟨hall, hlen⟩ := hexDecode_some s.data bs hbs
    refine ⟨?_, hall⟩
    have := utf8ByteSize_go_ascii s.data (fun c hc => isSome_hex_ascii c (hall c hc))
    simp only [String.utf8ByteSize, String.length] at *
    omega
  · simp at h

theorem ObjectIDFromHex_eq_none (s : String) (h : ¬ IsHexId s) : ObjectIDFromHex s = none := by
  cases hs : ObjectIDFromHex s with
  | none => rfl
  | some id => exact absurd (IsHexId_of_ObjectIDFromHex s id hs) h

theorem length_hexEncode (bs : List (Fin 256)) : (hexEncode bs).length = 2 * bs.length := by
  induction bs with
  | nil => rfl
  | cons b bs ih => simp only [hexEncode, encodeByte, List.length_append, List.length_cons,
      List.length_nil, ih]; omega

theorem hexEncode_ascii (bs : List (Fin 256)) : ∀ c ∈ hexEncode bs, c.toNat ≤ 127 := by
  intro c hc
  have h := hexDecode_some (hexEncode bs) bs (hexDecode_hexEncode bs)
  exact isSome_hex_ascii c (h.1 c hc)

theorem ObjectIDFromHex_Hex (id : ObjectID) : ObjectIDFromHex id.Hex = some id := by
  have hsz : id.Hex.utf8ByteSize = 24 := by
    have := utf8ByteSize_go_ascii (hexEncode id.bytes) (hexEncode_ascii id.bytes)
    show String.utf8ByteSize.go (hexEncode id.bytes) = 24
    rw [this, length_hexEncode, id.size]
  unfold ObjectIDFromHex
  rw [if_neg (by simp [hsz])]
  show (match hexDecode (hexEncode id.bytes) with
    | some bs => if h : bs.length = 12 then some (ObjectID.mk bs h) else none
    | none => none) = some id
  rw [hexDecode_hexEncode]
  simp only [id.size, dite_true]

theorem Hex_length (id : ObjectID) : id.Hex.length = 24 := by
  simp only [ObjectID.Hex, String.length, length_hexEncode, id.size]

theorem Hex_ne_empty (id : ObjectID) : id.Hex ≠ "" := by
  intro h
  have := Hex_length id
  rw [h] at this
  simp at this

/-! ## Lemmas on the store -/

theorem matchesFilter_id (v : BsonValue) (d : D) :
    matchesFilter [("_id", v)] d = decide (docId d = some v) := by
  simp [matchesFilter, docId]

theorem matchesFilter_nil (d : D) : matchesFilter [] d = true := rfl

theorem docId_setField (d : D) (k : String) (v : BsonValue) (hk : k ≠ "_id") :
    docId (setField d k v) = docId d := by
  induction d with
  | nil =>
    have : ("_id" == k) = false := by simpa using fun h => hk h.symm
    simp [setField, docId, List.lookup, this]
  | cons kv rest ih =>
    obtain ⟨k1, v1⟩ := kv
    unfold docId at ih ⊢
    by_cases h : k1 = k
    · subst h
      have : ("_id" == k1) = false := by simpa using fun h => hk h.symm
      simp [setField, List.lookup, this]
    · simp only [setField, if_neg h, List.lookup, ih]

theorem docId_applySet (fields d : D) (h : ∀ kv ∈ fields, kv.1 ≠ "_id") :
    docId (applySet d fields) = docId d := by
  unfold applySet
  induction fields generalizing d with
  | nil => rfl
  | cons kv rest ih =>
    simp only [List.foldl_cons]
    rw [ih _ (fun x hx => h x (List.mem_cons_of_mem _ hx)),
      docId_setField _ _ _ (h kv (List.mem_cons_self _ _))]

theorem idsOf_updateFirst (filter fields : D) (h : ∀ kv ∈ fields, kv.1 ≠ "_id") :
    ∀ (coll : Collection) (old : D) (coll1 : Collection),
      updateFirst filter fields coll = some (old, coll1) → idsOf coll1 = idsOf coll := by
  intro coll
  induction coll with
  | nil => intro old coll1 hu; simp [updateFirst] at hu
  | cons d ds ih =>
    intro old coll1 hu
    simp only [updateFirst] at hu
    split_ifs at hu with hm
    · simp only [Option.some.injEq, Prod.mk.injEq] at hu
      obtain ⟨_, rfl⟩ := hu
      simp [idsOf, docId_applySet fields d h]
    · split at hu
      · rename_i old1 ds1 hrec
        simp only [Option.some.injEq, Prod.mk.injEq] at hu
        obtain ⟨_, rfl⟩ := hu
        have := ih old1 ds1 hrec
        simp only [idsOf, List.map_cons] at this ⊢
        rw [this]
      · simp at hu

theorem updateFirst_none (filter fields : D) (coll : Collection)
    (h : ∀ d ∈ coll, matchesFilter filter d = false) : updateFirst filter fields coll = none := by
  induction coll with
  | nil => rfl
  | cons d ds ih =>
    simp only [updateFirst, h d (List.mem_cons_self _ _), Bool.false_eq_true, if_false,
      ih (fun x hx => h x (List.mem_cons_of_mem _ hx))]

theorem updateFirst_isSome (filter fields : D) (coll : Collection)
    (h : ∃ d ∈ coll, matchesFilter filter d = true) :
    ∃ r, updateFirst filter fields coll = some r := by
  induction coll with
  | nil => simp at h
  | cons d ds ih =>
    by_cases hm : matchesFilter filter d = true
    · exact ⟨(d, applySet d fields :: ds), by simp only [updateFirst, hm, if_true]⟩
    · obtain ⟨x, hx, hxm⟩ := h
      have hx1 : x ∈ ds := by
        rcases List.mem_cons.mp hx with rfl | hx1
        · exact absurd hxm hm
        · exact hx1
      obtain ⟨r, hr⟩ := ih ⟨x, hx1, hxm⟩
      have hmf : matchesFilter filter d = false := by simpa using hm
      exact ⟨(r.1, d :: r.2), by
        simp only [updateFirst, hmf, Bool.false_eq_true, if_false, hr]⟩

theorem updateFirst_append (filter fields : D) (coll : Collection) (d : D)
    (h : ∀ x ∈ coll, matchesFilter filter x = false) (hd : matchesFilter filter d = true) :
    updateFirst filter fields (coll ++ [d]) = some (d, coll ++ [applySet d fields]) := by
  induction coll with
  | nil => simp only [List.nil_append, updateFirst, hd, if_true]
  | cons x xs ih =>
    have hrec := ih (fun y hy => h y (List.mem_cons_of_mem _ hy))
    simp only [List.cons_append, updateFirst, h x (List.mem_cons_self _ _), Bool.false_eq_true,
      if_false, List.append_eq, hrec]

theorem deleteFirst_none (filter : D) (coll : Collection)
    (h : ∀ d ∈ coll, matchesFilter filter d = false) : deleteFirst filter coll = (0, coll) := by
  induction coll with
  | nil => rfl
  | cons d ds ih =>
    simp only [deleteFirst, h d (List.mem_cons_self _ _), Bool.false_eq_true, if_false,
      ih (fun x hx => h x (List.mem_cons_of_mem _ hx))]

theorem deleteFirst_count (filter : D) (coll : Collection)
    (h : ∃ d ∈ coll, matchesFilter filter d = true) : (deleteFirst filter coll).1 = 1 := by
  induction coll with
  | nil => simp at h
  | cons d ds ih =>
    by_cases hm : matchesFilter filter d = true
    · simp only [deleteFirst, hm, if_true]
    · obtain ⟨x, hx, hxm⟩ := h
      have hx1 : x ∈ ds := by
        rcases List.mem_cons.mp hx with rfl | hx1
        · exact absurd hxm hm
        · exact hx1
      have hmf : matchesFilter filter d = false := by simpa using hm
      simp only [deleteFirst, hmf, Bool.false_eq_true, if_false, ih ⟨x, hx1, hxm⟩]

theorem deleteFirst_sublist (filter : D) (coll : Collection) :
    (deleteFirst filter coll).2.Sublist coll := by
  induction coll with
  | nil => exact List.Sublist.refl _
  | cons d ds ih =>
    by_cases hm : matchesFilter filter d = true
    · simp only [deleteFirst, hm, if_true]
      exact List.sublist_cons_self d ds
    · simp only [deleteFirst, hm, if_false]
      exact ih.cons₂ d

theorem UniqueIds_deleteFirst (filter : D) (coll : Collection) (h : UniqueIds coll) :
    UniqueIds (deleteFirst filter coll).2 :=
  List.Nodup.sublist ((deleteFirst_sublist filter coll).map docId) h

theorem deleteFirst_removes (v : BsonValue) (coll : Collection) (h : UniqueIds coll)
    (hex : ∃ d ∈ coll, docId d = some v) :
    ∀ d ∈ (deleteFirst [("_id", v)] coll).2, docId d ≠ some v := by
  induction coll with
  | nil => simp at hex
  | cons d ds ih =>
    have hnd : docId d ∉ idsOf ds ∧ UniqueIds ds := by
      simpa [UniqueIds, idsOf] using h
    by_cases hm : docId d = some v
    · have hmf : matchesFilter [("_id", v)] d = true := by simp [matchesFilter_id, hm]
      simp only [deleteFirst, hmf, if_true]
      intro x hx hxv
      apply hnd.1
      rw [hm, ← hxv]
      exact List.mem_map_of_mem docId hx
    · have hmf : ¬ matchesFilter [("_id", v)] d = true := by simp [matchesFilter_id, hm]
      simp only [deleteFirst, hmf, if_false]
      obtain ⟨x, hx, hxv⟩ := hex
      have hx1 : x ∈ ds := by
        rcases List.mem_cons.mp hx with rfl | hx1
        · exact absurd hxv hm
        · exact hx1
      intro y hy
      rcases List.mem_cons.mp hy with rfl | hy1
      · exact hm
      · exact ih hnd.2 ⟨x, hx1, hxv⟩ y hy1

/-! ## Lemmas on the handlers -/

theorem BodyParser_object (p : Payload) :
    BodyParser (.object p) Employee.zero = .ok (p.toEmployee (p.id.getD "")) := rfl

theorem marshalEmployee_toEmployee (p : Payload) :
    marshalEmployee (p.toEmployee "") =
      [("name", .string (p.name.getD "")), ("salary", .double (p.salary.getD Float64.zero)),
        ("age", .double (p.age.getD Float64.zero))] := by
  simp [marshalEmployee, Payload.toEmployee]

theorem createdDocument_eq (newId : ObjectID) (p : Payload) :
    createdDocument newId p =
      [("_id", .objectID newId), ("name", .string (p.name.getD "")),
        ("salary", .double (p.salary.getD Float64.zero)),
        ("age", .double (p.age.getD Float64.zero))] := by
  simp [createdDocument, marshalEmployee_toEmployee, ensureID, List.lookup]

theorem docId_createdDocument (newId : ObjectID) (p : Payload) :
    docId (createdDocument newId p) = some (.objectID newId) := by
  simp [createdDocument_eq, docId, List.lookup]

theorem unmarshal_employee_document (id : ObjectID) (name : String) (salary age : Float64)
    (e : Employee) :
    unmarshalEmployee
      [("_id", .objectID id), ("name", .string name), ("salary", .double salary),
        ("age", .double age)] e = (⟨id.Hex, name, salary, age⟩, none) := by
  simp [unmarshalEmployee, decodeElement, lookupField, fieldByKey, decodeString, decodeFloat,
    Except.map]

theorem InsertOne_ok (newId : ObjectID) (coll : Collection) (p : Payload)
    (hfresh : some (BsonValue.objectID newId) ∉ idsOf coll) :
    InsertOne none newId coll (marshalEmployee (p.toEmployee "")) =
      .ok (.objectID newId, coll ++ [createdDocument newId p]) := by
  simp [InsertOne, createdDocument, marshalEmployee_toEmployee, ensureID, List.lookup, hfresh]

theorem find?_append_fresh (coll : Collection) (d : D) (v : BsonValue)
    (hfresh : some v ∉ idsOf coll) (hd : docId d = some v) :
    (coll ++ [d]).find? (matchesFilter [("_id", v)]) = some d := by
  induction coll with
  | nil => simp [matchesFilter_id, hd]
  | cons x xs ih =>
    have hx : docId x ≠ some v := by
      intro h; apply hfresh; simp [idsOf, h]
    have hxs : some v ∉ idsOf xs := by
      intro h; apply hfresh; simp only [idsOf, List.map_cons, List.mem_cons]; right; exact h
    have hmx : matchesFilter [("_id", v)] x = false := by simp [matchesFilter_id, hx]
    simp only [List.cons_append, List.find?, hmx]
    exact ih hxs

theorem FindOne_created (newId : ObjectID) (coll : Collection) (p : Payload)
    (hfresh : some (BsonValue.objectID newId) ∉ idsOf coll) :
    FindOne none (coll ++ [createdDocument newId p]) [("_id", .objectID newId)] =
      .ok (createdDocument newId p) := by
  simp only [FindOne, find?_append_fresh coll _ _ hfresh (docId_createdDocument newId p)]

/-! ## Malformed identifiers -/

/-- C4.  A path identifier that is not 24 hexadecimal digits makes both the
`PUT` and the `DELETE` handler answer 400 (body `Bad Request`), whatever the
request body, the collection and the state of the store connection: no store
call is issued and the collection is left as it was. -/
theorem malformed_id_rejected (idParam : String) (h : ¬ IsHexId idParam)
    (fault : Option String) (coll : Collection) (body : Body) :
    putEmployee fault coll idParam body = ⟨⟨400, .text "Bad Request"⟩, coll, []⟩ ∧
    deleteEmployee fault coll idParam = ⟨⟨400, .text "Bad Request"⟩, coll, []⟩ := by
  have hid := ObjectIDFromHex_eq_none idParam h
  constructor
  · simp only [putEmployee, hid]
    rfl
  · simp only [deleteEmployee, hid]
    rfl

/-- C4 at the path identifier `not-an-id`, with a body the parser rejects. -/
theorem malformed_id_rejected_witness :
    ¬ IsHexId "not-an-id" ∧
    putEmployee none [[("_id", .string "x")]] "not-an-id" (.malformed "unexpected end of JSON input")
      = ⟨⟨400, .text "Bad Request"⟩, [[("_id", .string "x")]], []⟩ ∧
    deleteEmployee none [[("_id", .string "x")]] "not-an-id"
      = ⟨⟨400, .text "Bad Request"⟩, [[("_id", .string "x")]], []⟩ :=
  ⟨by decide, malformed_id_rejected "not-an-id" (by decide) none _ _⟩

/-! ## Updates -/

/-- C6.  A `PUT` on a well-formed identifier under which no document is stored,
with a well-formed body, is answered 400 (and so not 500); the collection is
left exactly as it was, no document being created. -/
theorem update_unknown_id (coll : Collection) (idParam : String) (oid : ObjectID) (p : Payload)
    (hid : ObjectIDFromHex idParam = some oid)
    (hno : ∀ d ∈ coll, docId d ≠ some (.objectID oid)) :
    (putEmployee none coll idParam (.object p)).resp = ⟨400, .text "Bad Request"⟩ ∧
    (putEmployee none coll idParam (.object p)).resp.status ≠ 500 ∧
    (putEmployee none coll idParam (.object p)).coll = coll := by
  have hnone : updateFirst [("_id", .objectID oid)]
      (updateDocument (p.toEmployee (p.id.getD ""))).fields coll = none :=
    updateFirst_none _ _ _ (fun d hd => by simp [matchesFilter_id, hno d hd])
  have hput : putEmployee none coll idParam (.object p) =
      ⟨SendStatus 400, coll, [.FindOneAndUpdate [("_id", .objectID oid)]
        (updateDocument (p.toEmployee (p.id.getD "")))]⟩ := by
    simp only [putEmployee, hid, BodyParser_object, FindOneAndUpdate, updateDocument,
      UpdateDoc.fields] at hnone ⊢
    simp [hnone]
  rw [hput]
  refine ⟨rfl, ?_, rfl⟩
  show (400 : Nat) ≠ 500
  decide

/-- C6 at a collection of one document and an identifier it does not hold. -/
theorem update_unknown_id_witness :
    ObjectIDFromHex "5f1d7f3e8b0c4a2d9c6e1a3b"
      = some ⟨[0x5f, 0x1d, 0x7f, 0x3e, 0x8b, 0x0c, 0x4a, 0x2d, 0x9c, 0x6e, 0x1a, 0x3b], rfl⟩ ∧
    (putEmployee none
        [[("_id", .objectID ⟨[0, 0, 0, 0, 0, 0, 0, 0, 0, 0, 0, 1], rfl⟩), ("name", .string "Bob")]]
        "5f1d7f3e8b0c4a2d9c6e1a3b" (.object ⟨none, some "Ann", none, none⟩)).resp
      = ⟨400, .text "Bad Request"⟩ ∧
    (putEmployee none
        [[("_id", .objectID ⟨[0, 0, 0, 0, 0, 0, 0, 0, 0, 0, 0, 1], rfl⟩), ("name", .string "Bob")]]
        "5f1d7f3e8b0c4a2d9c6e1a3b" (.object ⟨none, some "Ann", none, none⟩)).coll
      = [[("_id", .objectID ⟨[0, 0, 0, 0, 0, 0, 0, 0, 0, 0, 0, 1], rfl⟩), ("name", .string "Bob")]] :=
  have h := update_unknown_id
    [[("_id", .objectID ⟨[0, 0, 0, 0, 0, 0, 0, 0, 0, 0, 0, 1], rfl⟩), ("name", .string "Bob")]]
    "5f1d7f3e8b0c4a2d9c6e1a3b"
    ⟨[0x5f, 0x1d, 0x7f, 0x3e, 0x8b, 0x0c, 0x4a, 0x2d, 0x9c, 0x6e, 0x1a, 0x3b], rfl⟩
    ⟨none, some "Ann", none, none⟩ (by decide) (by decide)
  ⟨by decide, h.1, h.2.2⟩

/-- C9.  A `PUT` on a well-formed path identifier under which a document is
stored, with a well-formed body, is answered 200 with the `Employee` whose id
is the path string itself and whose name, salary and age are those of the body
(absent members as zero values, the body's own id discarded).  The only store
call is the `FindOneAndUpdate`; the response is a function of the request. -/
theorem update_echo (coll : Collection) (idParam : String) (oid : ObjectID) (p : Payload)
    (hid : ObjectIDFromHex idParam = some oid)
    (hex : ∃ d ∈ coll, docId d = some (.objectID oid)) :
    (putEmployee none coll idParam (.object p)).resp
      = ⟨200, .json (.employee (p.toEmployee idParam))⟩ ∧
    (putEmployee none coll idParam (.object p)).calls
      = [.FindOneAndUpdate (idFilter oid) (updateDocument (p.toEmployee ""))] := by
  obtain ⟨d, hd, hdv⟩ := hex
  obtain ⟨r, hr⟩ := updateFirst_isSome [("_id", .objectID oid)]
    (updateDocument (p.toEmployee (p.id.getD ""))).fields coll
    ⟨d, hd, by simp [matchesFilter_id, hdv]⟩
  simp only [putEmployee, hid, BodyParser_object, FindOneAndUpdate, updateDocument,
    UpdateDoc.fields, idFilter] at hr ⊢
  simp only [hr]
  exact ⟨rfl, rfl⟩

/-- C9 at an upper-case path identifier and a body carrying an id of its own. -/
theorem update_echo_witness :
    ObjectIDFromHex "00000000000000000000002A"
      = some ⟨[0, 0, 0, 0, 0, 0, 0, 0, 0, 0, 0, 0x2a], rfl⟩ ∧
    (putEmployee none
        [[("_id", .objectID ⟨[0, 0, 0, 0, 0, 0, 0, 0, 0, 0, 0, 0x2a], rfl⟩), ("name", .string "Bob"),
          ("salary", .double ⟨9⟩), ("age", .double ⟨1⟩)]]
        "00000000000000000000002A" (.object ⟨some "zz", some "Ann", none, some ⟨5⟩⟩)).resp
      = ⟨200, .json (.employee ⟨"00000000000000000000002A", "Ann", ⟨0⟩, ⟨5⟩⟩)⟩ :=
  ⟨by decide,
   (update_echo
      [[("_id", .objectID ⟨[0, 0, 0, 0, 0, 0, 0, 0, 0, 0, 0, 0x2a], rfl⟩), ("name", .string "Bob"),
        ("salary", .double ⟨9⟩), ("age", .double ⟨1⟩)]]
      "00000000000000000000002A" ⟨[0, 0, 0, 0, 0, 0, 0, 0, 0, 0, 0, 0x2a], rfl⟩
      ⟨some "zz", some "Ann", none, some ⟨5⟩⟩ (by decide)
      ⟨_, List.mem_cons_self _ _, by decide⟩).1⟩

/-! ## Store errors -/

/-- C5.  With a store call failing with the error `connection refused`: `GET`
(on `Find`) and `POST` (on `InsertOne`) answer 500 with the error's text, but
`PUT` (on `FindOneAndUpdate`) and `DELETE` (on `DeleteOne`) answer 500 with the
body `Internal Server Error`, which is not the error's text; and `POST`, when
the read-back `FindOne` fails, answers 201 with an empty `Employee`. -/
theorem store_error_text_masked :
    (getEmployees (some "connection refused") none []).resp
      = ⟨500, .text (GoError.Error (.other "connection refused"))⟩ ∧
    (postEmployee (some "connection refused") none ⟨[0, 0, 0, 0, 0, 0, 0, 0, 0, 0, 0, 1], rfl⟩ []
        (.object ⟨none, some "Ann", none, none⟩)).resp
      = ⟨500, .text (GoError.Error (.other "connection refused"))⟩ ∧
    FindOneAndUpdate (some "connection refused") []
        (idFilter ⟨[0, 0, 0, 0, 0, 0, 0, 0, 0, 0, 0, 1], rfl⟩)
        (updateDocument (Payload.toEmployee ⟨none, some "Ann", none, none⟩ ""))
      = .error (.other "connection refused") ∧
    (putEmployee (some "connection refused") [] "000000000000000000000001"
        (.object ⟨none, some "Ann", none, none⟩)).resp
      = ⟨500, .text "Internal Server Error"⟩ ∧
    (putEmployee (some "connection refused") [] "000000000000000000000001"
        (.object ⟨none, some "Ann", none, none⟩)).resp.body
      ≠ .text (GoError.Error (.other "connection refused")) ∧
    DeleteOne (some "connection refused") [] (idFilter ⟨[0, 0, 0, 0, 0, 0, 0, 0, 0, 0, 0, 1], rfl⟩)
      = .error (.other "connection refused") ∧
    (deleteEmployee (some "connection refused") [] "000000000000000000000001").resp
      = ⟨500, .text "Internal Server Error"⟩ ∧
    (deleteEmployee (some "connection refused") [] "000000000000000000000001").resp.body
      ≠ .text (GoError.Error (.other "connection refused")) ∧
    FindOne (some "connection refused")
        [[("_id", .objectID ⟨[0, 0, 0, 0, 0, 0, 0, 0, 0, 0, 0, 1], rfl⟩), ("name", .string "Ann"),
          ("salary", .double ⟨0⟩), ("age", .double ⟨0⟩)]]
        (idFilter ⟨[0, 0, 0, 0, 0, 0, 0, 0, 0, 0, 0, 1], rfl⟩)
      = .error (.other "connection refused") ∧
    (postEmployee none (some "connection refused") ⟨[0, 0, 0, 0, 0, 0, 0, 0, 0, 0, 0, 1], rfl⟩ []
        (.object ⟨none, some "Ann", none, none⟩)).resp
      = ⟨201, .json (.employee ⟨"", "", ⟨0⟩, ⟨0⟩⟩)⟩ :=
  ⟨by decide, by decide, rfl, by decide, by decide, rfl, by decide, by decide, rfl, by decide⟩

/-! ## Persisted keys -/

/-- C8.  The fields the `PUT` handler sets are written under the keys `name`,
`age` and `salary`, whatever the employee; none of them is one of the keys
`Name`, `Salary`, `Age`. -/
theorem update_keys_not_capitalised :
    (∀ e : Employee, keys (updateDocument e).fields = ["name", "age", "salary"]) ∧
    (∀ k ∈ keys (updateDocument ⟨"", "Ann", ⟨1⟩, ⟨2⟩⟩).fields, k ∉ ["Name", "Salary", "Age"]) :=
  ⟨fun _ => rfl, by decide⟩

/-! ## Create -/

/-- C1.  For a well-formed create payload `p`, whatever its `id` member: when
`InsertOne` succeeds and the point read under the identifier it returned gives
back the inserted document, `POST /employee` answers 201 with the `Employee`
whose id is the hex form of the identifier generated for the insert (24
characters, so not empty; the payload's own id plays no part) and whose name,
salary and age are those of `p`, absent members as zero values. -/
theorem create_round_trip (insertFault readFault : Option String) (newId : ObjectID)
    (coll coll1 : Collection) (p : Payload) (insertedID : BsonValue)
    (hins : InsertOne insertFault newId coll (marshalEmployee (p.toEmployee ""))
      = .ok (insertedID, coll1))
    (hread : FindOne readFault coll1 [("_id", insertedID)] = .ok (createdDocument newId p)) :
    (postEmployee insertFault readFault newId coll (.object p)).resp
      = ⟨201, .json (.employee (p.toEmployee newId.Hex))⟩ ∧
    insertedID = .objectID newId ∧
    newId.Hex ≠ "" ∧ newId.Hex.length = 24 ∧
    (p.toEmployee newId.Hex).Name = p.name.getD "" ∧
    (p.toEmployee newId.Hex).Salary = p.salary.getD Float64.zero ∧
    (p.toEmployee newId.Hex).Age = p.age.getD Float64.zero := by
  have h1 : InsertOne insertFault newId coll
      (marshalEmployee { p.toEmployee (p.id.getD "") with ID := "" }) = .ok (insertedID, coll1) :=
    hins
  have hid : insertedID = .objectID newId := by
    cases insertFault with
    | some msg => simp [InsertOne] at hins
    | none =>
      simp only [InsertOne, marshalEmployee_toEmployee, ensureID, List.lookup] at hins
      split_ifs at hins
      simp only [Except.ok.injEq, Prod.mk.injEq] at hins
      exact hins.1.symm
  refine ⟨?_, hid, Hex_ne_empty newId, Hex_length newId, rfl, rfl, rfl⟩
  simp only [postEmployee, BodyParser_object, h1, hread, Decode, createdDocument_eq,
    unmarshal_employee_document]
  rfl

/-- C1 at a payload that carries an id and no age, on the empty collection. -/
theorem create_round_trip_witness :
    InsertOne none ⟨[0, 0, 0, 0, 0, 0, 0, 0, 0, 0, 0, 0x2a], rfl⟩ []
        (marshalEmployee (Payload.toEmployee
          ⟨some "507f1f77bcf86cd799439011", some "Ann", some ⟨7⟩, none⟩ ""))
      = .ok (.objectID ⟨[0, 0, 0, 0, 0, 0, 0, 0, 0, 0, 0, 0x2a], rfl⟩,
          [[("_id", .objectID ⟨[0, 0, 0, 0, 0, 0, 0, 0, 0, 0, 0, 0x2a], rfl⟩),
            ("name", .string "Ann"), ("salary", .double ⟨7⟩), ("age", .double ⟨0⟩)]]) ∧
    (postEmployee none none ⟨[0, 0, 0, 0, 0, 0, 0, 0, 0, 0, 0, 0x2a], rfl⟩ []
        (.object ⟨some "507f1f77bcf86cd799439011", some "Ann", some ⟨7⟩, none⟩)).resp
      = ⟨201, .json (.employee ⟨"00000000000000000000002a", "Ann", ⟨7⟩, ⟨0⟩⟩)⟩ :=
  ⟨rfl, (create_round_trip none none ⟨[0, 0, 0, 0, 0, 0, 0, 0, 0, 0, 0, 0x2a], rfl⟩ [] _
    ⟨some "507f1f77bcf86cd799439011", some "Ann", some ⟨7⟩, none⟩ _ rfl rfl).1⟩

theorem decodeAll_ok : ∀ (l : List D) (es : List Employee), decodeAll l = .ok es →
    es = l.map decodeEmployee ∧ ∀ d ∈ l, Decodable d
  | [], es, h => by
    simp only [decodeAll, Except.ok.injEq] at h
    subst h
    simp
  | d :: ds, es, h => by
    simp only [decodeAll] at h
    split at h
    · simp at h
    · rename_i e he
      split at h
      · rename_i es1 hes
        simp only [Except.ok.injEq] at h
        subst h
        obtain ⟨h1, h2⟩ := decodeAll_ok ds es1 hes
        refine ⟨?_, ?_⟩
        · simp only [List.map_cons, decodeEmployee, he, h1]
        · intro x hx
          rcases List.mem_cons.mp hx with rfl | hx1
          · simp only [Decodable, he]
          · exact h2 x hx1
      · simp at h

theorem decodeAll_of_decodable : ∀ (l : List D), (∀ d ∈ l, Decodable d) →
    decodeAll l = .ok (l.map decodeEmployee)
  | [], _ => rfl
  | d :: ds, h => by
    have hd : Decodable d := h d (List.mem_cons_self _ _)
    have hrec := decodeAll_of_decodable ds (fun x hx => h x (List.mem_cons_of_mem _ hx))
    have hp : unmarshalEmployee d Employee.zero = (decodeEmployee d, none) := by
      unfold Decodable at hd
      unfold decodeEmployee
      rw [← hd]
    simp only [decodeAll, hp, hrec, List.map_cons]

theorem filter_all (coll : Collection) : coll.filter (matchesFilter []) = coll :=
  List.filter_eq_self.mpr (fun d _ => matchesFilter_nil d)

theorem CursorAll_ok (coll : Collection) (h : ∀ d ∈ coll, Decodable d) :
    CursorAll none coll (.mk []) = .ok (.mk (coll.map decodeEmployee)) := by
  simp only [CursorAll, decodeAll_of_decodable coll h]
  cases coll with
  | nil => rfl
  | cons d ds => rfl

theorem CursorAll_eq_ok (cursorFault : Option String) (coll : Collection) (s : Slice Employee)
    (h : CursorAll cursorFault coll (.mk []) = .ok s) :
    s = .mk (coll.map decodeEmployee) ∧ ∀ d ∈ coll, Decodable d := by
  cases cursorFault with
  | some msg => simp [CursorAll] at h
  | none =>
    cases hd : decodeAll coll with
    | error err => simp [CursorAll, hd] at h
    | ok l =>
      obtain ⟨h1, h2⟩ := decodeAll_ok coll l hd
      refine ⟨?_, h2⟩
      rw [← h1]
      cases l with
      | nil => simpa [CursorAll, hd] using h.symm
      | cons e l1 => simpa [CursorAll, hd] using h.symm

theorem sendEmployees_200 (s es : Slice Employee)
    (h : sendEmployees 200 s = ⟨200, .json (.employees es)⟩) :
    s = es ∧ marshalSliceError s = none := by
  unfold sendEmployees at h
  cases hm : marshalSliceError s with
  | some err => simp [hm] at h
  | none =>
    simp only [hm, Response.mk.injEq, ResponseBody.json.injEq, JsonArg.employees.injEq,
      true_and] at h
    exact ⟨h, rfl⟩

theorem getEmployees_ok (coll : Collection) (h : ∀ d ∈ coll, Decodable d)
    (hj : encodeEmployeesError (coll.map decodeEmployee) = none) :
    getEmployees none none coll
      = ⟨⟨200, .json (.employees (.mk (coll.map decodeEmployee)))⟩, coll, [.Find [], .All]⟩ := by
  simp only [getEmployees, Find, filter_all, CursorAll_ok coll h, sendEmployees,
    marshalSliceError, hj]

theorem getEmployees_200 (findFault cursorFault : Option String) (coll : Collection)
    (es : Slice Employee)
    (h : (getEmployees findFault cursorFault coll).resp = ⟨200, .json (.employees es)⟩) :
    es = .mk (coll.map decodeEmployee) ∧ ∀ d ∈ coll, Decodable d := by
  cases findFault with
  | some msg => simp [getEmployees, Find] at h
  | none =>
    cases hc : CursorAll cursorFault coll (.mk []) with
    | error err => simp [getEmployees, Find, filter_all, hc] at h
    | ok s =>
      simp only [getEmployees, Find, filter_all, hc] at h
      obtain ⟨h1, h2⟩ := CursorAll_eq_ok cursorFault coll s hc
      rw [← (sendEmployees_200 s es h).1]
      exact ⟨h1, h2⟩

theorem decodable_createdDocument (newId : ObjectID) (p : Payload) :
    Decodable (createdDocument newId p) ∧
    decodeEmployee (createdDocument newId p) = p.toEmployee newId.Hex := by
  simp only [Decodable, decodeEmployee, createdDocument_eq, unmarshal_employee_document]
  exact ⟨trivial, rfl⟩

theorem postEmployee_ok (newId : ObjectID) (coll : Collection) (p : Payload)
    (hfresh : some (BsonValue.objectID newId) ∉ idsOf coll) :
    postEmployee none none newId coll (.object p)
      = ⟨⟨201, .json (.employee (p.toEmployee newId.Hex))⟩, coll ++ [createdDocument newId p],
          [.InsertOne (marshalEmployee (p.toEmployee "")), .FindOne (idFilter newId)]⟩ := by
  have h1 : InsertOne none newId coll
      (marshalEmployee { p.toEmployee (p.id.getD "") with ID := "" })
        = .ok (.objectID newId, coll ++ [createdDocument newId p]) := InsertOne_ok newId coll p hfresh
  simp only [postEmployee, BodyParser_object, h1, FindOne_created newId coll p hfresh, Decode]
  simp only [createdDocument_eq, unmarshal_employee_document]
  rfl

theorem postEmployee_created (insertFault readFault : Option String) (newId : ObjectID)
    (coll : Collection) (body : Body)
    (h : (postEmployee insertFault readFault newId coll body).resp.status = 201) :
    ∃ p, body = .object p ∧ insertFault = none ∧ some (BsonValue.objectID newId) ∉ idsOf coll ∧
      (postEmployee insertFault readFault newId coll body).coll
        = coll ++ [createdDocument newId p] := by
  cases body with
  | malformed err => simp [postEmployee, BodyParser] at h
  | object p =>
    refine ⟨p, rfl, ?_⟩
    cases insertFault with
    | some msg => simp [postEmployee, BodyParser_object, InsertOne] at h
    | none =>
      by_cases hfresh : some (BsonValue.objectID newId) ∈ idsOf coll
      · have : InsertOne none newId coll
            (marshalEmployee { p.toEmployee (p.id.getD "") with ID := "" })
              = .error (.other duplicateKeyMessage) := by
          show InsertOne none newId coll (marshalEmployee (p.toEmployee "")) = _
          simp [InsertOne, marshalEmployee_toEmployee, ensureID, List.lookup, hfresh]
        simp [postEmployee, BodyParser_object, this] at h
      · refine ⟨rfl, hfresh, ?_⟩
        have h1 : InsertOne none newId coll
            (marshalEmployee { p.toEmployee (p.id.getD "") with ID := "" })
              = .ok (.objectID newId, coll ++ [createdDocument newId p]) :=
          InsertOne_ok newId coll p hfresh
        simp only [postEmployee, BodyParser_object, h1]

theorem applySet_createdDocument (newId : ObjectID) (p b : Payload) (id : String) :
    applySet (createdDocument newId p) (updateDocument (b.toEmployee id)).fields
      = createdDocument newId b := by
  simp [createdDocument_eq, applySet, setField, updateDocument, UpdateDoc.fields,
    Payload.toEmployee]

theorem not_matches_of_fresh (coll : Collection) (v : BsonValue) (hfresh : some v ∉ idsOf coll) :
    ∀ x ∈ coll, matchesFilter [("_id", v)] x = false := by
  intro x hx
  have : docId x ≠ some v := fun h => hfresh (h ▸ List.mem_map_of_mem docId hx)
  simp [matchesFilter_id, this]

theorem putEmployee_created (newId : ObjectID) (coll : Collection) (p b : Payload)
    (hfresh : some (BsonValue.objectID newId) ∉ idsOf coll) :
    putEmployee none (coll ++ [createdDocument newId p]) newId.Hex (.object b)
      = ⟨⟨200, .json (.employee (b.toEmployee newId.Hex))⟩, coll ++ [createdDocument newId b],
          [.FindOneAndUpdate (idFilter newId) (updateDocument (b.toEmployee ""))]⟩ := by
  have hu := updateFirst_append [("_id", .objectID newId)]
    (updateDocument (b.toEmployee (b.id.getD ""))).fields coll (createdDocument newId p)
    (not_matches_of_fresh coll _ hfresh)
    (by simp [matchesFilter_id, docId_createdDocument])
  rw [applySet_createdDocument] at hu
  simp only [putEmployee, ObjectIDFromHex_Hex, BodyParser_object, FindOneAndUpdate,
    updateDocument, UpdateDoc.fields] at hu ⊢
  simp only [hu]
  rfl

/-- C2.  When `POST /employee` has created an employee from a payload `p` (so
with any salary), a `PUT` on the identifier it was given, with a payload `b`,
succeeds with status 200 and leaves under that identifier the document whose
name, salary and age are those of `b`, absent members as zero values: a point
read of the document decodes to that `Employee`, every successful list contains
it, and in particular a `b` without `salary` leaves the salary 0.0 whatever the
salary of `p` was. -/
theorem update_set_semantics (insertFault readFault : Option String) (newId : ObjectID)
    (coll : Collection) (p b : Payload)
    (hcreated : (postEmployee insertFault readFault newId coll (.object p)).resp.status = 201) :
    (putEmployee none (postEmployee insertFault readFault newId coll (.object p)).coll
        newId.Hex (.object b)).resp.status = 200 ∧
    Decode (FindOne none
        (putEmployee none (postEmployee insertFault readFault newId coll (.object p)).coll
          newId.Hex (.object b)).coll (idFilter newId)) Employee.zero
      = (b.toEmployee newId.Hex, none) ∧
    (∀ findFault cursorFault es,
      (getEmployees findFault cursorFault
        (putEmployee none (postEmployee insertFault readFault newId coll (.object p)).coll
          newId.Hex (.object b)).coll).resp = ⟨200, .json (.employees es)⟩ →
      ∃ l, es = .mk l ∧ b.toEmployee newId.Hex ∈ l) ∧
    (b.toEmployee newId.Hex).Name = b.name.getD "" ∧
    (b.toEmployee newId.Hex).Salary = b.salary.getD Float64.zero ∧
    (b.toEmployee newId.Hex).Age = b.age.getD Float64.zero ∧
    (b.salary = none → (b.toEmployee newId.Hex).Salary = Float64.zero) := by
  obtain ⟨q, hq, _, hfresh, hcoll⟩ := postEmployee_created _ _ _ _ _ hcreated
  simp only [Body.object.injEq] at hq
  subst hq
  rw [hcoll, putEmployee_created newId coll p b hfresh]
  refine ⟨rfl, ?_, ?_, rfl, rfl, rfl, ?_⟩
  · show Decode (FindOne none (coll ++ [createdDocument newId b]) [("_id", .objectID newId)])
      Employee.zero = _
    rw [FindOne_created newId coll b hfresh]
    simp only [Decode, createdDocument_eq, unmarshal_employee_document]
    rfl
  · intro findFault cursorFault es hes
    obtain ⟨h1, _⟩ := getEmployees_200 _ _ _ _ hes
    refine ⟨_, h1, ?_⟩
    simp only [List.map_append, List.map_cons, List.map_nil, List.mem_append, List.mem_singleton]
    right
    exact (decodable_createdDocument newId b).2.symm
  · intro hs
    simp [Payload.toEmployee, hs]

/-- C2 at an employee created with salary 1000.0 and updated without salary. -/
theorem update_set_semantics_witness :
    (postEmployee none none ⟨[0, 0, 0, 0, 0, 0, 0, 0, 0, 0, 0, 0x2a], rfl⟩ []
        (.object ⟨none, some "Ann", some ⟨4652007308841189376⟩, some ⟨5⟩⟩)).resp.status = 201 ∧
    Decode (FindOne none
        (putEmployee none
          (postEmployee none none ⟨[0, 0, 0, 0, 0, 0, 0, 0, 0, 0, 0, 0x2a], rfl⟩ []
            (.object ⟨none, some "Ann", some ⟨4652007308841189376⟩, some ⟨5⟩⟩)).coll
          "00000000000000000000002a" (.object ⟨none, some "Bob", none, some ⟨6⟩⟩)).coll
        (idFilter ⟨[0, 0, 0, 0, 0, 0, 0, 0, 0, 0, 0, 0x2a], rfl⟩)) Employee.zero
      = (⟨"00000000000000000000002a", "Bob", ⟨0⟩, ⟨6⟩⟩, none) :=
  ⟨by decide,
   (update_set_semantics none none ⟨[0, 0, 0, 0, 0, 0, 0, 0, 0, 0, 0, 0x2a], rfl⟩ []
    ⟨none, some "Ann", some ⟨4652007308841189376⟩, some ⟨5⟩⟩ ⟨none, some "Bob", none, some ⟨6⟩⟩
    (by decide)).2.1⟩

/-! ## Delete -/

theorem deleteEmployee_eq (coll : Collection) (idParam : String) (oid : ObjectID)
    (hid : ObjectIDFromHex idParam = some oid) :
    deleteEmployee none coll idParam =
      if (deleteFirst (idFilter oid) coll).1 < 1 then
        ⟨SendStatus 404, (deleteFirst (idFilter oid) coll).2, [.DeleteOne (idFilter oid)]⟩
      else
        ⟨⟨200, .json (.map [("message", "Employee successfully deleted")])⟩,
          (deleteFirst (idFilter oid) coll).2, [.DeleteOne (idFilter oid)]⟩ := by
  simp only [deleteEmployee, hid, DeleteOne, idFilter]

/-- C3.  On a collection (identifiers unique, as the store keeps them) holding
a document under the identifier of the path, `DELETE /employee/:id` answers 200
with the JSON object `message: Employee successfully deleted` and leaves no
document under that identifier, every other document staying; a second
`DELETE` of the same identifier on the resulting collection answers 404. -/
theorem delete_then_delete (coll : Collection) (idParam : String) (oid : ObjectID)
    (huniq : UniqueIds coll)
    (hid : ObjectIDFromHex idParam = some oid)
    (hex : ∃ d ∈ coll, docId d = some (.objectID oid)) :
    (deleteEmployee none coll idParam).resp
      = ⟨200, .json (.map [("message", "Employee successfully deleted")])⟩ ∧
    (∀ d ∈ (deleteEmployee none coll idParam).coll, docId d ≠ some (.objectID oid)) ∧
    (∀ d ∈ coll, docId d ≠ some (.objectID oid) → d ∈ (deleteEmployee none coll idParam).coll) ∧
    (deleteEmployee none coll idParam).coll.Sublist coll ∧
    (deleteEmployee none (deleteEmployee none coll idParam).coll idParam).resp
      = ⟨404, .text "Not Found"⟩ := by
  have hcount : (deleteFirst (idFilter oid) coll).1 = 1 := by
    obtain ⟨d, hd, hdv⟩ := hex
    exact deleteFirst_count _ _ ⟨d, hd, by simp [idFilter, matchesFilter_id, hdv]⟩
  have h1 : deleteEmployee none coll idParam
      = ⟨⟨200, .json (.map [("message", "Employee successfully deleted")])⟩,
          (deleteFirst (idFilter oid) coll).2, [.DeleteOne (idFilter oid)]⟩ := by
    rw [deleteEmployee_eq coll idParam oid hid, hcount]
    rfl
  have hgone := deleteFirst_removes (.objectID oid) coll huniq hex
  have h2 : deleteFirst (idFilter oid) (deleteFirst (idFilter oid) coll).2
      = (0, (deleteFirst (idFilter oid) coll).2) :=
    deleteFirst_none _ _ (fun d hd => by simp [idFilter, matchesFilter_id, hgone d hd])
  rw [h1]
  refine ⟨rfl, hgone, ?_, deleteFirst_sublist _ _, ?_⟩
  · intro d hd hne
    show d ∈ (deleteFirst (idFilter oid) coll).2
    clear h1 h2 hgone hcount hex huniq
    induction coll with
    | nil => simp at hd
    | cons x xs ih =>
      by_cases hm : matchesFilter (idFilter oid) x = true
      · simp only [deleteFirst, hm, if_true]
        rcases List.mem_cons.mp hd with rfl | hd1
        · simp [idFilter, matchesFilter_id, hne] at hm
        · exact hd1
      · have hmf : matchesFilter (idFilter oid) x = false := by simpa using hm
        simp only [deleteFirst, hmf, Bool.false_eq_true, if_false]
        rcases List.mem_cons.mp hd with rfl | hd1
        · exact List.mem_cons_self _ _
        · exact List.mem_cons_of_mem _ (ih hd1)
  · show (deleteEmployee none (deleteFirst (idFilter oid) coll).2 idParam).resp = _
    rw [deleteEmployee_eq _ idParam oid hid, h2]
    rfl

/-- C3 at a collection of two documents, deleting the second twice. -/
theorem delete_then_delete_witness :
    UniqueIds [[("_id", .objectID ⟨[0, 0, 0, 0, 0, 0, 0, 0, 0, 0, 0, 1], rfl⟩), ("name", .string "Ann")],
               [("_id", .objectID ⟨[0, 0, 0, 0, 0, 0, 0, 0, 0, 0, 0, 2], rfl⟩), ("name", .string "Bob")]] ∧
    ObjectIDFromHex "000000000000000000000002" = some ⟨[0, 0, 0, 0, 0, 0, 0, 0, 0, 0, 0, 2], rfl⟩ ∧
    (deleteEmployee none
        [[("_id", .objectID ⟨[0, 0, 0, 0, 0, 0, 0, 0, 0, 0, 0, 1], rfl⟩), ("name", .string "Ann")],
         [("_id", .objectID ⟨[0, 0, 0, 0, 0, 0, 0, 0, 0, 0, 0, 2], rfl⟩), ("name", .string "Bob")]]
        "000000000000000000000002").resp
      = ⟨200, .json (.map [("message", "Employee successfully deleted")])⟩ ∧
    (deleteEmployee none
        (deleteEmployee none
          [[("_id", .objectID ⟨[0, 0, 0, 0, 0, 0, 0, 0, 0, 0, 0, 1], rfl⟩), ("name", .string "Ann")],
           [("_id", .objectID ⟨[0, 0, 0, 0, 0, 0, 0, 0, 0, 0, 0, 2], rfl⟩), ("name", .string "Bob")]]
          "000000000000000000000002").coll
        "000000000000000000000002").resp
      = ⟨404, .text "Not Found"⟩ :=
  have h := delete_then_delete
    [[("_id", .objectID ⟨[0, 0, 0, 0, 0, 0, 0, 0, 0, 0, 0, 1], rfl⟩), ("name", .string "Ann")],
     [("_id", .objectID ⟨[0, 0, 0, 0, 0, 0, 0, 0, 0, 0, 0, 2], rfl⟩), ("name", .string "Bob")]]
    "000000000000000000000002" ⟨[0, 0, 0, 0, 0, 0, 0, 0, 0, 0, 0, 2], rfl⟩
    (by decide) (by decide) ⟨_, List.mem_cons_of_mem _ (List.mem_cons_self _ _), by decide⟩
  ⟨by decide, by decide, h.1, h.2.2.2.2⟩

/-! ## List -/

theorem idsOf_append_created (coll : Collection) (newId : ObjectID) (p : Payload) :
    idsOf (coll ++ [createdDocument newId p]) = idsOf coll ++ [some (.objectID newId)] := by
  simp [idsOf, docId_createdDocument]

theorem encodeEmployeeError_toEmployee (p : Payload) (id : String) :
    encodeEmployeeError (p.toEmployee id) = encodeEmployeeError (p.toEmployee "") := rfl

/-- C7, as stated, fails: on each of two collections `Find` succeeds and
`GET /employee` answers 500.  On the first the stored name is a double, which
does not decode into the struct, so the reading of the cursor fails; on the
second the stored salary is a NaN, which has no JSON encoding. -/
theorem list_fails_after_find :
    Find none [[("_id", .objectID ⟨[0, 0, 0, 0, 0, 0, 0, 0, 0, 0, 0, 2], rfl⟩),
        ("name", .double ⟨7⟩)]] []
      = .ok [[("_id", .objectID ⟨[0, 0, 0, 0, 0, 0, 0, 0, 0, 0, 0, 2], rfl⟩),
        ("name", .double ⟨7⟩)]] ∧
    (getEmployees none none
      [[("_id", .objectID ⟨[0, 0, 0, 0, 0, 0, 0, 0, 0, 0, 0, 2], rfl⟩), ("name", .double ⟨7⟩)]]).resp
      = ⟨500, .text "error decoding key name: cannot decode double into a string type"⟩ ∧
    Find none [[("_id", .objectID ⟨[0, 0, 0, 0, 0, 0, 0, 0, 0, 0, 0, 3], rfl⟩), ("name", .string "Ann"),
        ("salary", .double ⟨0x7ff8000000000000⟩)]] []
      = .ok [[("_id", .objectID ⟨[0, 0, 0, 0, 0, 0, 0, 0, 0, 0, 0, 3], rfl⟩), ("name", .string "Ann"),
        ("salary", .double ⟨0x7ff8000000000000⟩)]] ∧
    CursorAll none [[("_id", .objectID ⟨[0, 0, 0, 0, 0, 0, 0, 0, 0, 0, 0, 3], rfl⟩),
        ("name", .string "Ann"), ("salary", .double ⟨0x7ff8000000000000⟩)]] (.mk [])
      = .ok (.mk [⟨"000000000000000000000003", "Ann", ⟨0x7ff8000000000000⟩, ⟨0⟩⟩]) ∧
    (getEmployees none none
      [[("_id", .objectID ⟨[0, 0, 0, 0, 0, 0, 0, 0, 0, 0, 0, 3], rfl⟩), ("name", .string "Ann"),
        ("salary", .double ⟨0x7ff8000000000000⟩)]]).resp
      = ⟨500, .text "json: unsupported value: NaN"⟩ :=
  ⟨rfl, by decide, rfl, rfl, by decide⟩

/-- C7, amended.  Whenever `Find` returns a cursor, the reading of that cursor
succeeds and the employees read have a JSON encoding, `GET /employee` answers
200 with a non-nil sequence holding, in the collection's order, the decoding
of each stored document: one entry per document, none added, none dropped, the
collection untouched.  These conditions hold, with no store error, on every
collection made of documents as the create and update operations write them
from JSON bodies, which is then listed in full.  In particular three creations
on the empty collection are listed as exactly the three employees created, and
the empty collection is listed as the empty array, not as null. -/
theorem list_completeness :
    (∀ (findFault cursorFault : Option String) (coll cursor : List D) (s : Slice Employee),
      Find findFault coll [] = .ok cursor →
      CursorAll cursorFault cursor (.mk []) = .ok s →
      marshalSliceError s = none →
      getEmployees findFault cursorFault coll
        = ⟨⟨200, .json (.employees (.mk (coll.map decodeEmployee)))⟩, coll, [.Find [], .All]⟩ ∧
      (coll.map decodeEmployee).length = coll.length ∧
      (∀ d ∈ coll, Decodable d) ∧
      (JsonArg.employees (.mk (coll.map decodeEmployee))).shape = .array coll.length) ∧
    (∀ (written : List (ObjectID × Payload)), (∀ x ∈ written, x.2.Encodable) →
      getEmployees none none (written.map fun x => createdDocument x.1 x.2)
        = ⟨⟨200, .json (.employees (.mk (written.map fun x => x.2.toEmployee x.1.Hex)))⟩,
            written.map (fun x => createdDocument x.1 x.2), [.Find [], .All]⟩) ∧
    (∀ (a b c : ObjectID) (p1 p2 p3 : Payload), a ≠ b → a ≠ c → b ≠ c →
      p1.Encodable → p2.Encodable → p3.Encodable →
      (getEmployees none none
        (postEmployee none none c
          (postEmployee none none b
            (postEmployee none none a [] (.object p1)).coll (.object p2)).coll
          (.object p3)).coll).resp
        = ⟨200, .json (.employees
            (.mk [p1.toEmployee a.Hex, p2.toEmployee b.Hex, p3.toEmployee c.Hex]))⟩) ∧
    (getEmployees none none []).resp = ⟨200, .json (.employees (.mk []))⟩ ∧
    (JsonArg.employees (.mk [])).shape = .array 0 ∧
    (JsonArg.employees (.mk [])).shape ≠ .null := by
  refine ⟨?_, ?_, ?_, rfl, rfl, by decide⟩
  · intro findFault cursorFault coll cursor s hfind hall hjson
    have hcur : cursor = coll := by
      cases findFault with
      | some msg => simp [Find] at hfind
      | none =>
        simp only [Find, filter_all, Except.ok.injEq] at hfind
        exact hfind.symm
    subst hcur
    obtain ⟨hs, hdec⟩ := CursorAll_eq_ok cursorFault cursor s hall
    have hresp : getEmployees findFault cursorFault cursor
        = ⟨⟨200, .json (.employees s)⟩, cursor, [.Find [], .All]⟩ := by
      simp only [getEmployees, hfind, hall, sendEmployees, hjson]
    rw [hresp, hs]
    exact ⟨rfl, List.length_map _ _, hdec, by simp [JsonArg.shape]⟩
  · intro written hw
    have hdec : ∀ d ∈ written.map (fun x => createdDocument x.1 x.2), Decodable d := by
      intro d hd
      obtain ⟨x, _, rfl⟩ := List.mem_map.mp hd
      exact (decodable_createdDocument x.1 x.2).1
    have hmap : List.map decodeEmployee (written.map fun x => createdDocument x.1 x.2)
        = written.map fun x => x.2.toEmployee x.1.Hex := by
      rw [List.map_map]
      exact List.map_congr_left (fun x _ => (decodable_createdDocument x.1 x.2).2)
    have hj : encodeEmployeesError (written.map fun x => x.2.toEmployee x.1.Hex) = none := by
      clear hdec hmap
      induction written with
      | nil => rfl
      | cons x xs ih =>
        have hx : encodeEmployeeError (x.2.toEmployee x.1.Hex) = none :=
          hw x (List.mem_cons_self _ _)
        simp only [List.map_cons, encodeEmployeesError, hx]
        exact ih (fun y hy => hw y (List.mem_cons_of_mem _ hy))
    rw [getEmployees_ok _ hdec (hmap ▸ hj), hmap]
  · intro a b c p1 p2 p3 hab hac hbc hp1 hp2 hp3
    have ha : some (BsonValue.objectID a) ∉ idsOf [] := by simp [idsOf]
    rw [postEmployee_ok a [] p1 ha]
    have hb : some (BsonValue.objectID b) ∉ idsOf ([] ++ [createdDocument a p1]) := by
      rw [idsOf_append_created]
      simp [idsOf, Ne.symm hab]
    rw [postEmployee_ok b _ p2 hb]
    have hc : some (BsonValue.objectID c) ∉
        idsOf ([] ++ [createdDocument a p1] ++ [createdDocument b p2]) := by
      rw [idsOf_append_created, idsOf_append_created]
      simp [idsOf, Ne.symm hac, Ne.symm hbc]
    rw [postEmployee_ok c _ p3 hc]
    have hdec : ∀ d ∈ [] ++ [createdDocument a p1] ++ [createdDocument b p2]
        ++ [createdDocument c p3], Decodable d := by
      intro d hd
      simp only [List.nil_append, List.cons_append, List.mem_cons, List.mem_singleton,
        List.not_mem_nil, or_false] at hd
      rcases hd with rfl | rfl | rfl
      · exact (decodable_createdDocument a p1).1
      · exact (decodable_createdDocument b p2).1
      · exact (decodable_createdDocument c p3).1
    have hmap : List.map decodeEmployee ([] ++ [createdDocument a p1] ++ [createdDocument b p2]
        ++ [createdDocument c p3])
        = [p1.toEmployee a.Hex, p2.toEmployee b.Hex, p3.toEmployee c.Hex] := by
      simp only [List.nil_append, List.cons_append, List.map_cons, List.map_nil,
        (decodable_createdDocument _ _).2]
    have hj : encodeEmployeesError (List.map decodeEmployee ([] ++ [createdDocument a p1]
        ++ [createdDocument b p2] ++ [createdDocument c p3])) = none := by
      unfold Payload.Encodable at hp1 hp2 hp3
      rw [hmap]
      simp only [encodeEmployeesError, encodeEmployeeError_toEmployee, hp1, hp2, hp3]
    rw [getEmployees_ok _ hdec hj, hmap]

/-- C7, amended, at a collection of one document and at three creations. -/
theorem list_completeness_witness :
    Find none [[("_id", .objectID ⟨[0, 0, 0, 0, 0, 0, 0, 0, 0, 0, 0, 1], rfl⟩),
        ("name", .string "Ann"), ("salary", .double ⟨7⟩), ("age", .double ⟨0⟩)]] []
      = .ok [[("_id", .objectID ⟨[0, 0, 0, 0, 0, 0, 0, 0, 0, 0, 0, 1], rfl⟩),
        ("name", .string "Ann"), ("salary", .double ⟨7⟩), ("age", .double ⟨0⟩)]] ∧
    getEmployees none none [[("_id", .objectID ⟨[0, 0, 0, 0, 0, 0, 0, 0, 0, 0, 0, 1], rfl⟩),
        ("name", .string "Ann"), ("salary", .double ⟨7⟩), ("age", .double ⟨0⟩)]]
      = ⟨⟨200, .json (.employees (.mk [⟨"000000000000000000000001", "Ann", ⟨7⟩, ⟨0⟩⟩]))⟩,
          [[("_id", .objectID ⟨[0, 0, 0, 0, 0, 0, 0, 0, 0, 0, 0, 1], rfl⟩),
            ("name", .string "Ann"), ("salary", .double ⟨7⟩), ("age", .double ⟨0⟩)]],
          [.Find [], .All]⟩ ∧
    Payload.Encodable ⟨none, some "Ann", some ⟨7⟩, none⟩ ∧
    (getEmployees none none
      (postEmployee none none ⟨[0, 0, 0, 0, 0, 0, 0, 0, 0, 0, 0, 3], rfl⟩
        (postEmployee none none ⟨[0, 0, 0, 0, 0, 0, 0, 0, 0, 0, 0, 2], rfl⟩
          (postEmployee none none ⟨[0, 0, 0, 0, 0, 0, 0, 0, 0, 0, 0, 1], rfl⟩ []
            (.object ⟨none, some "Ann", some ⟨7⟩, none⟩)).coll
          (.object ⟨none, some "Bob", none, none⟩)).coll
        (.object ⟨none, none, none, some ⟨9⟩⟩)).coll).resp
      = ⟨200, .json (.employees (.mk [⟨"000000000000000000000001", "Ann", ⟨7⟩, ⟨0⟩⟩,
          ⟨"000000000000000000000002", "Bob", ⟨0⟩, ⟨0⟩⟩,
          ⟨"000000000000000000000003", "", ⟨0⟩, ⟨9⟩⟩]))⟩ :=
  ⟨rfl, (list_completeness.1 none none
    [[("_id", .objectID ⟨[0, 0, 0, 0, 0, 0, 0, 0, 0, 0, 0, 1], rfl⟩),
      ("name", .string "Ann"), ("salary", .double ⟨7⟩), ("age", .double ⟨0⟩)]]
    [[("_id", .objectID ⟨[0, 0, 0, 0, 0, 0, 0, 0, 0, 0, 0, 1], rfl⟩),
      ("name", .string "Ann"), ("salary", .double ⟨7⟩), ("age", .double ⟨0⟩)]]
    (.mk [⟨"000000000000000000000001", "Ann", ⟨7⟩, ⟨0⟩⟩]) rfl rfl (by decide)).1,
   by decide,
   list_completeness.2.2.1 ⟨[0, 0, 0, 0, 0, 0, 0, 0, 0, 0, 0, 1], rfl⟩
    ⟨[0, 0, 0, 0, 0, 0, 0, 0, 0, 0, 0, 2], rfl⟩ ⟨[0, 0, 0, 0, 0, 0, 0, 0, 0, 0, 0, 3], rfl⟩
    ⟨none, some "Ann", some ⟨7⟩, none⟩ ⟨none, some "Bob", none, none⟩ ⟨none, none, none, some ⟨9⟩⟩
    (by decide) (by decide) (by decide) (by decide) (by decide) (by decide)⟩

/-! ## Identifiers -/

theorem postEmployee_coll (insertFault readFault : Option String) (newId : ObjectID)
    (coll : Collection) (body : Body) :
    (postEmployee insertFault readFault newId coll body).coll = coll ∨
    ∃ p, body = .object p ∧ some (BsonValue.objectID newId) ∉ idsOf coll ∧
      (postEmployee insertFault readFault newId coll body).coll
        = coll ++ [createdDocument newId p] := by
  cases body with
  | malformed err => left; rfl
  | object p =>
    cases insertFault with
    | some msg => left; rfl
    | none =>
      by_cases hfresh : some (BsonValue.objectID newId) ∈ idsOf coll
      · left
        have : InsertOne none newId coll
            (marshalEmployee { p.toEmployee (p.id.getD "") with ID := "" })
              = .error (.other duplicateKeyMessage) := by
          show InsertOne none newId coll (marshalEmployee (p.toEmployee "")) = _
          simp [InsertOne, marshalEmployee_toEmployee, ensureID, List.lookup, hfresh]
        simp only [postEmployee, BodyParser_object, this]
      · right
        refine ⟨p, rfl, hfresh, ?_⟩
        have h1 : InsertOne none newId coll
            (marshalEmployee { p.toEmployee (p.id.getD "") with ID := "" })
              = .ok (.objectID newId, coll ++ [createdDocument newId p]) :=
          InsertOne_ok newId coll p hfresh
        simp only [postEmployee, BodyParser_object, h1]

theorem postEmployee_calls (insertFault readFault : Option String) (newId : ObjectID)
    (coll : Collection) (body : Body) (document : D)
    (h : StoreCall.InsertOne document ∈ (postEmployee insertFault readFault newId coll body).calls) :
    docId document = none := by
  cases body with
  | malformed err => simp [postEmployee, BodyParser] at h
  | object p =>
    have hdoc : docId (marshalEmployee { p.toEmployee (p.id.getD "") with ID := "" }) = none := by
      show docId (marshalEmployee (p.toEmployee "")) = none
      simp [marshalEmployee_toEmployee, docId, List.lookup]
    simp only [postEmployee, BodyParser_object] at h
    split at h
    · simp only [List.mem_singleton, StoreCall.InsertOne.injEq] at h
      rw [h]; exact hdoc
    · simp only [List.mem_cons, StoreCall.InsertOne.injEq, List.mem_singleton, reduceCtorEq,
        or_false, List.not_mem_nil] at h
      rw [h]; exact hdoc

theorem putEmployee_ids (fault : Option String) (coll : Collection) (idParam : String)
    (body : Body) : idsOf (putEmployee fault coll idParam body).coll = idsOf coll := by
  cases hid : ObjectIDFromHex idParam with
  | none => simp only [putEmployee, hid]
  | some oid =>
    cases hb : BodyParser body Employee.zero with
    | error err => simp only [putEmployee, hid, hb]
    | ok employee =>
      cases hu : FindOneAndUpdate fault coll [("_id", .objectID oid)] (updateDocument employee) with
      | error err =>
        simp only [putEmployee, hid, hb, hu]
        split <;> rfl
      | ok r =>
        obtain ⟨old, coll1⟩ := r
        simp only [putEmployee, hid, hb, hu]
        cases fault with
        | some msg => simp [FindOneAndUpdate] at hu
        | none =>
          simp only [FindOneAndUpdate, updateDocument] at hu
          split at hu
          · rename_i r hr
            simp only [Except.ok.injEq] at hu
            subst hu
            refine idsOf_updateFirst _ _ ?_ coll _ _ hr
            intro kv hkv
            simp only [List.mem_cons, List.mem_singleton, List.not_mem_nil, or_false] at hkv
            rcases hkv with rfl | rfl | rfl <;> simp
          · simp at hu

theorem deleteEmployee_sublist (fault : Option String) (coll : Collection) (idParam : String) :
    (deleteEmployee fault coll idParam).coll.Sublist coll := by
  cases hid : ObjectIDFromHex idParam with
  | none =>
    simp only [deleteEmployee, hid]
    exact List.Sublist.refl _
  | some oid =>
    cases fault with
    | some msg =>
      simp only [deleteEmployee, hid, DeleteOne]
      exact List.Sublist.refl _
    | none =>
      rw [deleteEmployee_eq coll idParam oid hid]
      split <;> exact deleteFirst_sublist _ _

theorem getEmployees_coll (findFault cursorFault : Option String) (coll : Collection) :
    (getEmployees findFault cursorFault coll).coll = coll := by
  cases hf : Find findFault coll [] with
  | error err => simp only [getEmployees, hf]
  | ok cursor =>
    cases hc : CursorAll cursorFault cursor (.mk []) with
    | error err => simp only [getEmployees, hf, hc]
    | ok s => simp only [getEmployees, hf, hc]

/-- C10.  On a collection whose identifiers are unique, each of the four
handlers, whatever its inputs and whether its store calls succeed or fail,
leaves a collection whose identifiers are unique.  The list handler does not
change the collection.  The create handler never hands the store a document
carrying an `_id` (the id of the body is cleared), and what it stores, if
anything, is one document under the identifier generated for the insert.  The
update handler leaves the identifiers of the collection exactly as they were,
document by document. -/
theorem identifier_invariant (coll : Collection) (huniq : UniqueIds coll) :
    (∀ findFault cursorFault, (getEmployees findFault cursorFault coll).coll = coll) ∧
    (∀ insertFault readFault newId body,
      UniqueIds (postEmployee insertFault readFault newId coll body).coll) ∧
    (∀ fault idParam body, UniqueIds (putEmployee fault coll idParam body).coll) ∧
    (∀ fault idParam, UniqueIds (deleteEmployee fault coll idParam).coll) ∧
    (∀ insertFault readFault newId body document,
      StoreCall.InsertOne document ∈ (postEmployee insertFault readFault newId coll body).calls →
      docId document = none) ∧
    (∀ insertFault readFault newId body,
      idsOf (postEmployee insertFault readFault newId coll body).coll = idsOf coll ∨
      idsOf (postEmployee insertFault readFault newId coll body).coll
        = idsOf coll ++ [some (.objectID newId)]) ∧
    (∀ fault idParam body, idsOf (putEmployee fault coll idParam body).coll = idsOf coll) := by
  refine ⟨?_, ?_, ?_, ?_, ?_, ?_, ?_⟩
  · intro findFault cursorFault
    exact getEmployees_coll findFault cursorFault coll
  · intro insertFault readFault newId body
    rcases postEmployee_coll insertFault readFault newId coll body with h | ⟨p, _, hfresh, h⟩
    · rw [h]; exact huniq
    · rw [h]
      unfold UniqueIds
      rw [idsOf_append_created]
      refine List.Nodup.append huniq (List.nodup_singleton _) ?_
      intro x hx hx1
      rw [List.mem_singleton.mp hx1] at hx
      exact hfresh hx
  · intro fault idParam body
    unfold UniqueIds
    rw [putEmployee_ids]
    exact huniq
  · intro fault idParam
    exact List.Nodup.sublist ((deleteEmployee_sublist fault coll idParam).map docId) huniq
  · intro insertFault readFault newId body document h
    exact postEmployee_calls insertFault readFault newId coll body document h
  · intro insertFault readFault newId body
    rcases postEmployee_coll insertFault readFault newId coll body with h | ⟨p, _, _, h⟩
    · left; rw [h]
    · right; rw [h, idsOf_append_created]
  · intro fault idParam body
    exact putEmployee_ids fault coll idParam body

/-- C10 at a collection of one document: a create whose generated identifier
is already stored, and one whose generated identifier is new. -/
theorem identifier_invariant_witness :
    UniqueIds [[("_id", .objectID ⟨[0, 0, 0, 0, 0, 0, 0, 0, 0, 0, 0, 1], rfl⟩),
        ("name", .string "Ann"), ("salary", .double ⟨7⟩), ("age", .double ⟨0⟩)]] ∧
    UniqueIds (postEmployee none none ⟨[0, 0, 0, 0, 0, 0, 0, 0, 0, 0, 0, 1], rfl⟩
      [[("_id", .objectID ⟨[0, 0, 0, 0, 0, 0, 0, 0, 0, 0, 0, 1], rfl⟩),
        ("name", .string "Ann"), ("salary", .double ⟨7⟩), ("age", .double ⟨0⟩)]]
      (.object ⟨some "000000000000000000000001", some "Bob", none, none⟩)).coll ∧
    UniqueIds (postEmployee none none ⟨[0, 0, 0, 0, 0, 0, 0, 0, 0, 0, 0, 2], rfl⟩
      [[("_id", .objectID ⟨[0, 0, 0, 0, 0, 0, 0, 0, 0, 0, 0, 1], rfl⟩),
        ("name", .string "Ann"), ("salary", .double ⟨7⟩), ("age", .double ⟨0⟩)]]
      (.object ⟨some "000000000000000000000001", some "Bob", none, none⟩)).coll :=
  have h := identifier_invariant
    [[("_id", .objectID ⟨[0, 0, 0, 0, 0, 0, 0, 0, 0, 0, 0, 1], rfl⟩),
      ("name", .string "Ann"), ("salary", .double ⟨7⟩), ("age", .double ⟨0⟩)]] (by decide)
  ⟨by decide, h.2.1 none none _ _, h.2.1 none none _ _⟩

end HRMS
